import Mathlib

/-!
# Verification of the Copernicus ingestion pipeline (`backend/scanner/ingest.py`)

Shallow embedding of the ingestion pipeline of the `herramienta-copernicus`
repository: per-file metadata extraction (`extract_metadata` and its helpers
`extract_times_from_filename`, `walk_all_variables`, `normalize_datetime`,
`extract_bbox_fallback`, and `find_lat_lon` from `core/helpers.py`), the
orchestration loop of `ingest`, and the batch loader `_flush`, together with a
model of the SQLite store the loader writes to.

Python floats are modelled as `Option ℚ` (`none` plays the role of NaN /
`None` / SQL NULL for coordinate values); machine behaviour that can raise is
modelled with `Except PyExc`.  External library calls (dateutil parsing,
xxhash, numpy reductions) are modelled by executable Lean functions faithful
to the behaviour the pipeline relies on; each such model is documented at its
definition.
-/

namespace Copernicus

/-- Model of a Python exception value (only its description matters here). -/
structure PyExc where
  msg : String
deriving Repr, DecidableEq, Inhabited

/-- A parsed timestamp, as produced by the dateutil parsers: the fields that
`strftime("%Y-%m-%dT%H:%M:%S")` consumes. -/
structure DT where
  year : Nat
  month : Nat
  day : Nat
  hour : Nat
  minute : Nat
  second : Nat
deriving Repr, DecidableEq

/-! ## Digits and zero-padded decimal rendering (kernel-reducible) -/

/-- Decimal digits of `n`, most significant first, computed with explicit
structural fuel so that the kernel can evaluate it. -/
def natDigitsAux : Nat → Nat → List Char
  | _, 0 => []
  | n, fuel + 1 =>
    if n < 10 then [Char.ofNat (48 + n)]
    else natDigitsAux (n / 10) fuel ++ [Char.ofNat (48 + n % 10)]

/-- Decimal digit characters of `n`, most significant first. -/
def natDigits (n : Nat) : List Char := natDigitsAux n (n + 1)

/-- Left-pad a character list with `c` up to width `w`. -/
def padLeft (c : Char) (w : Nat) (l : List Char) : List Char :=
  List.replicate (w - l.length) c ++ l

/-- The number `n` rendered in decimal, zero-padded to width `w` (as `strftime` pads). -/
def padNat (w n : Nat) : List Char := padLeft '0' w (natDigits n)

/-- Model of Python's `datetime.strftime("%Y-%m-%dT%H:%M:%S")`. -/
def strftimeISO (d : DT) : String :=
  ⟨padNat 4 d.year ++ '-' :: padNat 2 d.month ++ '-' :: padNat 2 d.day ++
    'T' :: padNat 2 d.hour ++ ':' :: padNat 2 d.minute ++ ':' :: padNat 2 d.second⟩

/-! ## Model of `dateutil.parser.isoparse` / `dateutil.parser.parse` -/

/-- Days in a month, with Gregorian leap years, as Python's `datetime`
constructor validates them. -/
def daysInMonth (y m : Nat) : Nat :=
  if m = 2 then (if y % 4 = 0 ∧ (y % 100 ≠ 0 ∨ y % 400 = 0) then 29 else 28)
  else if m = 4 ∨ m = 6 ∨ m = 9 ∨ m = 11 then 30
  else 31

/-- Range validation performed by Python's `datetime` constructor; an
out-of-range component makes the parser raise, i.e. return `none`. -/
def mkValidDT (y m d h mi s : Nat) : Option DT :=
  if 1 ≤ m ∧ m ≤ 12 ∧ 1 ≤ d ∧ d ≤ daysInMonth y m ∧ h ≤ 23 ∧ mi ≤ 59 ∧ s ≤ 59
  then some ⟨y, m, d, h, mi, s⟩ else none

/-- Numeric value of a digit-character list (most significant first). -/
def digitsToNat (cs : List Char) : Nat :=
  cs.foldl (fun a c => a * 10 + (c.toNat - 48)) 0

/-- Parse the date part of an ISO-8601 string: extended `YYYY-MM[-DD]`,
basic `YYYYMMDD`, or a bare `YYYY`; returns the remaining characters. -/
def parseISODate : List Char → Option (Nat × Nat × Nat × List Char)
  | y1 :: y2 :: y3 :: y4 :: rest =>
    if (y1.isDigit ∧ y2.isDigit ∧ y3.isDigit ∧ y4.isDigit) then
      let y := digitsToNat [y1, y2, y3, y4]
      match rest with
      | '-' :: m1 :: m2 :: rest2 =>
        if (m1.isDigit ∧ m2.isDigit) then
          let m := digitsToNat [m1, m2]
          match rest2 with
          | '-' :: d1 :: d2 :: rest3 =>
            if (d1.isDigit ∧ d2.isDigit) then
              some (y, m, digitsToNat [d1, d2], rest3)
            else none
          | _ => some (y, m, 1, rest2)
        else none
      | m1 :: m2 :: d1 :: d2 :: rest2 =>
        if (m1.isDigit ∧ m2.isDigit ∧ d1.isDigit ∧ d2.isDigit) then
          some (y, digitsToNat [m1, m2], digitsToNat [d1, d2], rest2)
        else none
      | [] => some (y, 1, 1, [])
      | _ => none
    else none
  | _ => none

/-- Parse the time part (after the date): empty, or a `T`/space separator
followed by `HH:MM:SS` or basic `HHMMSS`, with an optional trailing `Z`. -/
def parseISOTime : List Char → Option (Nat × Nat × Nat)
  | [] => some (0, 0, 0)
  | sep :: rest =>
    if (sep = 'T' ∨ sep = ' ') then
      match rest with
      | h1 :: h2 :: ':' :: m1 :: m2 :: ':' :: s1 :: s2 :: tail =>
        if (h1.isDigit ∧ h2.isDigit ∧ m1.isDigit ∧ m2.isDigit ∧ s1.isDigit ∧ s2.isDigit)
            ∧ (tail = [] ∨ tail = ['Z']) then
          some (digitsToNat [h1, h2], digitsToNat [m1, m2], digitsToNat [s1, s2])
        else none
      | h1 :: h2 :: m1 :: m2 :: s1 :: s2 :: tail =>
        if (h1.isDigit ∧ h2.isDigit ∧ m1.isDigit ∧ m2.isDigit ∧ s1.isDigit ∧ s2.isDigit)
            ∧ (tail = [] ∨ tail = ['Z']) then
          some (digitsToNat [h1, h2], digitsToNat [m1, m2], digitsToNat [s1, s2])
        else none
      | _ => none
    else none

/-- Model of the external `dateutil.parser.isoparse` on the ISO-8601 shapes
this pipeline encounters (extended and basic dates, optional `T`-separated
time, optional `Z`); invalid component ranges raise, i.e. yield `none`. -/
def du_isoparse (s : String) : Option DT :=
  match parseISODate s.data with
  | none => none
  | some (y, m, d, rest) =>
    match parseISOTime rest with
    | none => none
    | some (h, mi, sec) => mkValidDT y m d h mi sec

/-- Model of the external lenient `dateutil.parser.parse` fallback; on the
timestamp shapes this pipeline feeds it, it accepts the same strings as the
strict ISO parser. -/
def du_parse (s : String) : Option DT := du_isoparse s

/-! ## `normalize_datetime` (ingest.py, lines 62-72) -/

/-- Model of `normalize_datetime` (ingest.py, lines 62-72): empty in, empty out; otherwise strict ISO parse,
then lenient parse, then `""` on total failure; successes are rendered with
`strftime("%Y-%m-%dT%H:%M:%S")`. -/
def normalize_datetime (value : String) : String :=
  if value = "" then ""
  else
    match du_isoparse value with
    | some dt => strftimeISO dt
    | none =>
      match du_parse value with
      | some dt => strftimeISO dt
      | none => ""

/-! ## `extract_times_from_filename` (ingest.py, lines 42-52) -/

/-- Does this 15-character block have the shape `<8 digits>T<6 digits>`? -/
def isTSBlock : List Char → Bool
  | [a, b, c, d, e, f, g, h, t, i, j, k, l, m, n] =>
    a.isDigit ∧ b.isDigit ∧ c.isDigit ∧ d.isDigit ∧ e.isDigit ∧ f.isDigit ∧
    g.isDigit ∧ h.isDigit ∧ t = 'T' ∧ i.isDigit ∧ j.isDigit ∧ k.isDigit ∧
    l.isDigit ∧ m.isDigit ∧ n.isDigit
  | _ => Bool.false

/-- Try to match `(\d{8}T\d{6})_(\d{8}T\d{6})` at the head of `l`,
returning the two captured groups. -/
def tryMatchAt (l : List Char) : Option (String × String) :=
  let cs := l.take 31
  if cs.length = 31 ∧ isTSBlock (cs.take 15) ∧ (cs.drop 15).take 1 = ['_']
      ∧ isTSBlock (cs.drop 16) then
    some (⟨cs.take 15⟩, ⟨cs.drop 16⟩)
  else none

/-- Model of `re.search(r"(\d{8}T\d{6})_(\d{8}T\d{6})", name)`: the leftmost
position where the fixed-shape pattern matches, if any. -/
def searchTimestampPair : List Char → Option (String × String)
  | [] => none
  | c :: rest =>
    match tryMatchAt (c :: rest) with
    | some p => some p
    | none => searchTimestampPair rest

/-- Model of `extract_times_from_filename`: search the filename stem for the embedded
timestamp pair; if found and both halves parse, return both normalized,
otherwise return `("", "")` (a parse failure of either half is caught and
discards both). -/
def extract_times_from_filename (stem : String) : String × String :=
  match searchTimestampPair stem.data with
  | some (g1, g2) =>
    match du_isoparse g1, du_isoparse g2 with
    | some d1, some d2 => (strftimeISO d1, strftimeISO d2)
    | _, _ => ("", "")
  | none => ("", "")

/-! ## NetCDF model (`netCDF4.Dataset` view): nested groups of named variables -/

/-- A NetCDF variable: its name and its raw values.  Coordinate values are
modelled as `Option ℚ`: `none` plays the role of NaN. -/
structure NCVar where
  name : String
  values : List (Option ℚ)
deriving Repr, DecidableEq

mutual
/-- A NetCDF group: variables plus nested subgroups (mutually inductive with
`NCGroupList` so that all recursions are structural and kernel-evaluable). -/
inductive NCGroup where
  | node (vars : List NCVar) (subgroups : NCGroupList)

/-- A list of NetCDF groups. -/
inductive NCGroupList where
  | nil
  | cons (g : NCGroup) (gs : NCGroupList)
end

mutual
/-- All variable names of a group and its nested subgroups (with repeats). -/
def walkVars : NCGroup → List String
  | .node vars subs => vars.map (·.name) ++ walkVarsList subs

/-- All variable names over a list of groups. -/
def walkVarsList : NCGroupList → List String
  | .nil => []
  | .cons g gs => walkVars g ++ walkVarsList gs
end

/-- Model of `walk_all_variables` (ingest.py, lines 54-60): Python builds a `set` of
names recursively across nested groups; modelled as the deduplicated list of
all names (same membership, one entry per distinct name). -/
def walk_all_variables (g : NCGroup) : List String := (walkVars g).dedup

mutual
/-- Model of `find_coord_array` (inner helper of `extract_bbox_fallback`): try each
candidate name in order in this group's variables, then recurse depth-first
into subgroups. -/
def find_coord_array (g : NCGroup) (coordNames : List String) : Option (List (Option ℚ)) :=
  match g with
  | .node vars subs =>
    match coordNames.findSome? (fun n => (vars.find? (fun v => v.name == n)).map (·.values)) with
    | some arr => some arr
    | none => find_coord_array_list subs coordNames

/-- Depth-first search of `find_coord_array` over a group list. -/
def find_coord_array_list (gs : NCGroupList) (coordNames : List String) :
    Option (List (Option ℚ)) :=
  match gs with
  | .nil => none
  | .cons g rest =>
    match find_coord_array g coordNames with
    | some r => some r
    | none => find_coord_array_list rest coordNames
end

/-- Model of `float(np.nanmin(xs))` on a non-empty array: minimum of the
non-NaN entries; an all-NaN input gives NaN, modelled as `none`.  (On an
*empty* array numpy raises instead; both call sites guard that case
explicitly before reaching this function.) -/
def nanmin (l : List (Option ℚ)) : Option ℚ :=
  match l.reduceOption with
  | [] => none
  | x :: xs => some (xs.foldl min x)

/-- Model of `float(np.nanmax(xs))`: maximum of the non-NaN entries. -/
def nanmax (l : List (Option ℚ)) : Option ℚ :=
  match l.reduceOption with
  | [] => none
  | x :: xs => some (xs.foldl max x)

/-- The latitude names probed by `extract_bbox_fallback`. -/
def lat_names : List String := ["lat", "latitude", "LATITUDE", "LAT"]

/-- The longitude names probed by `extract_bbox_fallback`. -/
def lon_names : List String := ["lon", "longitude", "LONGITUDE", "LON"]

/-- A bounding-box value as `extract_metadata` computes it: the 4-tuple
`(lat_min, lat_max, lon_min, lon_max)`; `none` models NaN / `None`, which
SQLite stores as NULL. -/
structure BBoxV where
  lat_min : Option ℚ
  lat_max : Option ℚ
  lon_min : Option ℚ
  lon_max : Option ℚ
deriving Repr, DecidableEq

/-- The all-`None` bbox tuple `(None, None, None, None)`. -/
def noBBox : BBoxV := ⟨none, none, none, none⟩

/-- Model of `extract_bbox_fallback` (ingest.py, lines 74-94): recursively look for a
conventional lat and lon variable; if both are found return their nan-min/max,
else the all-`None` tuple.  On an *empty* coordinate array
`float(np.nanmin(...))` raises `ValueError`, which propagates out of this
function (it has no handler of its own) — modelled as `Except.error`. -/
def extract_bbox_fallback (nc : NCGroup) : Except PyExc BBoxV :=
  match find_coord_array nc lat_names, find_coord_array nc lon_names with
  | some la, some lo =>
    if la.isEmpty ∨ lo.isEmpty then
      .error ⟨"ValueError: zero-size array to reduction operation"⟩
    else .ok ⟨nanmin la, nanmax la, nanmin lo, nanmax lo⟩
  | _, _ => .ok noBBox

/-! ## xarray model (`xr.open_dataset` view) and `find_lat_lon` -/

/-- An xarray variable: name, its `standard_name` attribute (empty when the
attribute is absent, as `attrs.get("standard_name", "")`), and values. -/
structure XrVar where
  name : String
  standard_name : String
  values : List (Option ℚ)
deriving Repr, DecidableEq

/-- An xarray dataset: the (root-group) variables in file order. -/
structure XrDataset where
  vars : List XrVar
deriving Repr, DecidableEq

/-- Variable lookup by name, `ds[name]`. -/
def xrGet (ds : XrDataset) (n : String) : Option XrVar :=
  ds.vars.find? (fun v => v.name == n)

/-- ASCII lowercase of a string (variable names here are ASCII, matching
Python's `.lower()` on them). -/
def strToLower (s : String) : String := ⟨s.data.map Char.toLower⟩

/-- The `standard_name` attribute marks this variable as latitude. -/
def isLatStd (v : XrVar) : Bool :=
  strToLower v.standard_name == "latitude" || strToLower v.standard_name == "grid_latitude"

/-- The `standard_name` attribute marks this variable as longitude. -/
def isLonStd (v : XrVar) : Bool :=
  strToLower v.standard_name == "longitude" || strToLower v.standard_name == "grid_longitude"

/-- Model of `re.search(r"(?:^|[_])lat(?:itude)?$", n, re.I)`: the name,
case-insensitively, is `lat`/`latitude` or ends in `_lat`/`_latitude`. -/
def latRegexMatch (n : String) : Bool :=
  let l := strToLower n
  l == "lat" || l == "latitude" ||
    "_lat".data.isSuffixOf l.data || "_latitude".data.isSuffixOf l.data

/-- Model of `re.search(r"(?:^|[_])lon(?:gitude)?$", n, re.I)`. -/
def lonRegexMatch (n : String) : Bool :=
  let l := strToLower n
  l == "lon" || l == "longitude" ||
    "_lon".data.isSuffixOf l.data || "_longitude".data.isSuffixOf l.data

/-- Steps 2 and 3 of `find_lat_lon` (core/helpers.py): the `nav_lat`/`nav_lon`
pair, then the regex fallback on names; `none` models the final
`raise ValueError`. -/
def find_lat_lon_fallbacks (ds : XrDataset) : Option (String × String) :=
  let names := ds.vars.map (·.name)
  if "nav_lat" ∈ names ∧ "nav_lon" ∈ names then some ("nav_lat", "nav_lon")
  else
    match ds.vars.find? (fun v => latRegexMatch v.name),
          ds.vars.find? (fun v => lonRegexMatch v.name) with
    | some la, some lo => some (la.name, lo.name)
    | _, _ => none

/-- Model of `find_lat_lon` (core/helpers.py, lines 10-43).  Step 1 scans all
variables keeping the *last* one whose `standard_name` matches (the Python
loop overwrites); the pair is used only if both names are truthy. -/
def find_lat_lon (ds : XrDataset) : Option (String × String) :=
  match ((ds.vars.filter isLatStd).getLast?).map (·.name),
        ((ds.vars.filter isLonStd).getLast?).map (·.name) with
  | some la, some lo =>
    if la ≠ "" ∧ lo ≠ "" then some (la, lo) else find_lat_lon_fallbacks ds
  | _, _ => find_lat_lon_fallbacks ds

/-! ## The xarray bounding-box strategies of `extract_metadata` -/

/-- Is `p` an infix of `l` (model of Python's `in` on strings)? -/
def listInfix (p : List Char) : List Char → Bool
  | [] => p.isEmpty
  | c :: rest => p.isPrefixOf (c :: rest) || listInfix p rest

/-- Lexicographic comparison of character lists by code point, as Python
compares strings. -/
def lexLe : List Char → List Char → Bool
  | [], _ => true
  | _ :: _, [] => false
  | a :: as, b :: bs =>
    if a.toNat < b.toNat then true
    else if b.toNat < a.toNat then false
    else lexLe as bs

/-- Insert into a sorted list (helper of `sortStrings`). -/
def insertSortedStr (x : String) : List String → List String
  | [] => [x]
  | y :: ys => if lexLe x.data y.data then x :: y :: ys else y :: insertSortedStr x ys

/-- Model of Python's `sorted` on strings (insertion sort, code-point order). -/
def sortStrings : List String → List String
  | [] => []
  | x :: xs => insertSortedStr x (sortStrings xs)

/-- Model of `sorted([v for v in ds_xr.variables if "pixel_corner_latitude_Corner" in v])`. -/
def cornerLatNames (ds : XrDataset) : List String :=
  sortStrings ((ds.vars.map (·.name)).filter
    (fun n => listInfix ("pixel_corner_latitude_Corner".data) n.data))

/-- Model of `sorted([v for v in ds_xr.variables if "pixel_corner_longitude_Corner" in v])`. -/
def cornerLonNames (ds : XrDataset) : List String :=
  sortStrings ((ds.vars.map (·.name)).filter
    (fun n => listInfix ("pixel_corner_longitude_Corner".data) n.data))

/-- Model of `np.nanmean(column)` for one element position across the stacked
corner arrays: mean of the non-NaN entries, `none` (NaN) if all are NaN. -/
def nanmeanList (col : List (Option ℚ)) : Option ℚ :=
  match col.reduceOption with
  | [] => none
  | x :: xs => some (((x :: xs).sum) / ((x :: xs).length : ℚ))

/-- Column `i` of the stacked arrays is the list of their `i`-th entries;
structural transposition guided by the first row (the rows are guarded to
have equal lengths before this is used). -/
def colsAux : List (Option ℚ) → List (List (Option ℚ)) → List (List (Option ℚ))
  | [], _ => []
  | x :: xs, rest =>
    (x :: rest.map (fun r => r.headD none)) :: colsAux xs (rest.map (fun r => r.drop 1))

/-- The per-index columns of a stack of equally long arrays. -/
def nanColumns : List (List (Option ℚ)) → List (List (Option ℚ))
  | [] => []
  | a :: rest => colsAux a rest

/-- Model of `np.nanmean(np.array(arrs), axis=0)`: element-wise nan-mean of
equally shaped arrays; unequal shapes make numpy fail, i.e. `none`. -/
def nanmeanStack (arrs : List (List (Option ℚ))) : Option (List (Option ℚ)) :=
  match arrs with
  | [] => some []
  | a :: rest =>
    if rest.all (fun r => r.length == a.length) then
      some ((nanColumns (a :: rest)).map nanmeanList)
    else none

/-- Final `float(np.nanmin(..))`/`nanmax` step of the xarray branch (lines
121-124): on an empty coordinate array numpy raises, which the enclosing
`except Exception` turns into the netCDF4 fallback — modelled as `none`. -/
def finishBBox (la lo : List (Option ℚ)) : Option BBoxV :=
  if la.isEmpty ∨ lo.isEmpty then none
  else some ⟨nanmin la, nanmax la, nanmin lo, nanmax lo⟩

/-- The xarray part of the bbox extraction (ingest.py, lines 106-125): direct
coordinates via `find_lat_lon`, else the four-per-axis pixel-corner fallback;
`none` models any exception, which sends the caller to
`extract_bbox_fallback`. -/
def xr_bbox (ds : XrDataset) : Option BBoxV :=
  match find_lat_lon ds with
  | some (latName, lonName) =>
    match xrGet ds latName, xrGet ds lonName with
    | some lav, some lov => finishBBox lav.values lov.values
    | _, _ => none
  | none =>
    let clat := cornerLatNames ds
    let clon := cornerLonNames ds
    if clat.length = 4 ∧ clon.length = 4 then
      match nanmeanStack (clat.filterMap (fun n => (xrGet ds n).map (·.values))),
            nanmeanStack (clon.filterMap (fun n => (xrGet ds n).map (·.values))) with
      | some la, some lo => finishBBox la lo
      | _, _ => none
    else none

/-! ## The on-disk file as the extractor sees it -/

/-- The global attributes and root group of an open `netCDF4.Dataset`;
absent string attributes are modelled as `""` (the `getattr` defaults). -/
structure NCDataset where
  root : NCGroup
  start_time : String
  stop_time : String
  platform : String
  source : String
  instrument : String

/-- One candidate file, as the operations of `extract_metadata` observe it.
Each fallible operation (stat, the two opens, the 8 KiB read) is recorded as
its deterministic outcome: `Except.error` models that call raising. -/
structure NCFile where
  path : String
  name : String
  stem : String
  statSize : Except PyExc Nat
  xrOpen : Except PyExc XrDataset
  ncOpen : Except PyExc NCDataset
  firstBytes : Except PyExc (List Nat)

/-- The bbox cascade of `extract_metadata` (lines 105-128): the xarray
strategies, and on any failure there, `extract_bbox_fallback` over a fresh
`netCDF4.Dataset`.  Both the `Dataset` open failure and a raise inside
`extract_bbox_fallback` happen inside the inner `except` handler, so they
propagate to the outermost `try` (caught there as a per-file failure). -/
def compute_bbox (f : NCFile) : Except PyExc BBoxV :=
  match f.xrOpen with
  | .ok ds =>
    match xr_bbox ds with
    | some bb => .ok bb
    | none => (f.ncOpen).bind (fun nc => extract_bbox_fallback nc.root)
  | .error _ => (f.ncOpen).bind (fun nc => extract_bbox_fallback nc.root)

/-! ## The alias table (config.py) -/

/-- The table `VARIABLES_ALIAS` from `config.py`, as written (including the duplicated
keys of the Python dict literal; lookup takes the last binding, as Python
does). -/
def VARIABLES_ALIAS : List (String × String) := [
  ("sea_surface_temperature", "Sea Surface Temperature"),
  ("analysed_sst", "Sea Surface Temperature"),
  ("sst", "Sea Surface Temperature"),
  ("sea_ice_fraction", "Sea Ice Fraction"),
  ("ice_fraction", "Sea Ice Fraction"),
  ("wind_speed", "Wind Speed"),
  ("wind_speed_over_ocean", "Wind Speed"),
  ("FRP_MWIR", "Fire Radiative Power (MWIR)"),
  ("FRP_SWIR", "Fire Radiative Power (SWIR)"),
  ("ozone_total_vertical_column", "Ozone Total Column"),
  ("carbonmonoxide_total_column", "Carbon Monoxide Column"),
  ("nitrogendioxide_tropospheric_column", "Nitrogen Dioxide Column"),
  ("nitrogendioxide_stratospheric_column", "Nitrogen Dioxide Stratospheric Column"),
  ("sulfurdioxide_total_vertical_column", "Sulfur Dioxide Column"),
  ("formaldehyde_tropospheric_vertical_column", "Formaldehyde Tropospheric Column"),
  ("formaldehyde_tropospheric_vertical_column_precision", "Formaldehyde Precision"),
  ("methane_mixing_ratio_bias_corrected", "Methane (CH4) Column"),
  ("aerosol_index_354_388", "Aerosol Index (354–388 nm)"),
  ("aerosol_index_340_380", "Aerosol Index (340–380 nm)"),
  ("aerosol_index_335_367", "Aerosol Index (335–367 nm)"),
  ("absorbing_aerosol_index", "Aerosol Index"),
  ("aerosol_height", "Aerosol Layer Height"),
  ("cloud_fraction", "Cloud Fraction"),
  ("cloud_top_pressure", "Cloud Top Pressure"),
  ("cloud_optical_depth", "Cloud Optical Depth"),
  ("cloud_base_pressure", "Cloud Base Pressure"),
  ("cloud_albedo", "Cloud Albedo"),
  ("sea_level_anomaly", "Sea Level Anomaly"),
  ("AOD_550", "AOD 550 nm"),
  ("AOD_550_Land", "AOD 550 nm (Land)"),
  ("AOD_550_Merged_OceanLand", "AOD 550 nm (Merged)"),
  ("AOD_670", "AOD 670 nm"),
  ("AOD_865", "AOD 865 nm"),
  ("AOD_1600", "AOD 1600 nm"),
  ("AOD_2250", "AOD 2250 nm"),
  ("wind_direction", "Wind Direction"),
  ("significant_wave_height", "Significant Wave Height"),
  ("ozone_number_density", "Ozone Number Density"),
  ("ozone_partial_column", "Ozone Partial Column"),
  ("air_temperature", "Air Temperature (Profile)"),
  ("specific_humidity", "Specific Humidity (Profile)"),
  ("fire_mask", "Active Fire Mask"),
  ("FP_power", "Fire Radiative Power"),
  ("power", "Fire Radiative Power"),
  ("FRP", "Fire Radiative Power"),
  ("sea_surface_height", "Sea Surface Height"),
  ("sea_level_anomaly", "Sea Level Anomaly"),
  ("significant_wave_height", "Significant Wave Height"),
  ("AOD_550", "Aerosol Optical Depth 550 nm"),
  ("aod550", "Aerosol Optical Depth 550 nm"),
  ("FRP_MWIR", "Fire Radiative Power (MWIR)"),
  ("FRP_SWIR", "Fire Radiative Power (SWIR)"),
  ("wind_speed", "Wind Speed"),
  ("wind_direction", "Wind Direction"),
  ("sea_surface_temperature", "Sea Surface Temperature"),
  ("analysed_sst", "Sea Surface Temperature"),
  ("sst", "Sea Surface Temperature"),
  ("nitrogendioxide_total_column", "Nitrogen Dioxide Column"),
  ("nitrogendioxide_tropospheric_column", "Nitrogen Dioxide Tropospheric Column"),
  ("nitrogendioxide_stratospheric_column", "Nitrogen Dioxide Stratospheric Column"),
  ("ozone_profile", "Ozone Profile"),
  ("aerosol_layer_height", "Aerosol Layer Height")]

/-- Python dict lookup over the literal above: the last binding of a
duplicated key wins. -/
def dictGet (d : List (String × String)) (k : String) : Option String :=
  ((d.filter (fun p => p.1 == k)).getLast?).map (·.2)

/-! ## `extract_metadata` (ingest.py, lines 96-175) -/

/-- The size-guard threshold (`MAX_SIZE_MB`, line 18). -/
def MAX_SIZE_MB : Nat := 700

/-- Model of the external `xxhash.xxh64_hexdigest` over the first 8 KiB: some
fixed deterministic function of those bytes (the pipeline only compares
digests for equality). -/
def xxh64_hexdigest (bs : List Nat) : Nat :=
  bs.foldl (fun h b => (h * 31 + b + 1) % 2 ^ 64) 0

/-- The warning printed by the size guard (line 98; the formatted size figure
is abstracted away, only the fact that a line naming the file is printed
matters). -/
def tooLargeMsg (nm : String) : String :=
  "[extract_metadata] Archivo demasiado grande: " ++ nm

/-- One metadata tuple as buffered by the pipeline (the 9-tuple built at
lines 158-168, in field order). -/
structure Meta where
  file_path : String
  product_name : String
  datetime_start : String
  datetime_end : String
  satellite : String
  instrument : String
  product_type : String
  size_bytes : Nat
  checksum : Nat
deriving Repr, DecidableEq

/-- The value `extract_metadata` *returns*: either the pair of parallel lists
`(metas, bboxes)` or the captured per-file failure `(exc, None)`. -/
inductive ExtractRes where
  | records (metas : List Meta) (bboxes : List BBoxV)
  | failure (e : PyExc)
deriving Repr, DecidableEq

deriving instance DecidableEq for Except

/-- The observable behaviour of one `extract_metadata` call: its outcome
(`Except.error` = an exception escaped the function uncaught) and the lines
it printed. -/
structure ExtractOut where
  result : Except PyExc ExtractRes
  logs : List String
deriving DecidableEq

/-- Helper for `satellite` (line 149): the `platform` attribute if truthy, else the
first space-delimited token of `source` (Python's `split(" ")[0]`). -/
def pySplitSpaceAux : List Char → List Char → List String
  | [], acc => [⟨acc.reverse⟩]
  | ' ' :: rest, acc => ⟨acc.reverse⟩ :: pySplitSpaceAux rest []
  | c :: rest, acc => pySplitSpaceAux rest (c :: acc)

/-- Model of Python's `s.split(" ")` (explicit single-space separator). -/
def pySplitSpace (s : String) : List String := pySplitSpaceAux s.data []

/-- The satellite identification of `extract_metadata`. -/
def satelliteOf (nc : NCDataset) : String :=
  if nc.platform ≠ "" then nc.platform else (pySplitSpace nc.source).headD ("")

/-- The record-construction part of `extract_metadata` (lines 134-172), once
bbox, size and checksum are known and the `netCDF4.Dataset` is open: match
variables against the alias table, normalize times with the filename
fallback, and fan out one record per matched variable, all sharing the same
file-level fields.  (The filename-fallback guard `if not datetime_start or
not datetime_end` is absorbed per component: the extraction is pure, and a
non-empty component is never overwritten.) -/
def mkRecords (f : NCFile) (n : Nat) (chk : Nat) (bb : BBoxV) (nc : NCDataset) : ExtractRes :=
  let vars_in_nc := walk_all_variables nc.root
  let matched_vars := vars_in_nc.filter (fun v => (dictGet VARIABLES_ALIAS v).isSome)
  let ds0 := normalize_datetime nc.start_time
  let de0 := normalize_datetime nc.stop_time
  let datetime_start := if ds0 = "" then (extract_times_from_filename f.stem).1 else ds0
  let datetime_end := if de0 = "" then (extract_times_from_filename f.stem).2 else de0
  if matched_vars.isEmpty then .records [] []
  else
    .records
      (matched_vars.map (fun v =>
        { file_path := f.path
          product_name := (dictGet VARIABLES_ALIAS v).getD ("") ++ " – " ++ v
          datetime_start := datetime_start
          datetime_end := datetime_end
          satellite := satelliteOf nc
          instrument := nc.instrument
          product_type := v
          size_bytes := n
          checksum := chk }))
      (matched_vars.map (fun _ => bb))

/-- Model of `extract_metadata`.  The size guard (lines 97-99) runs *before* the
`try`, so a failing `stat` escapes uncaught (`Except.error`); everything
after line 101 is inside `try ... except Exception`, whose captures surface
as `ExtractRes.failure`. -/
def extract_metadata (f : NCFile) : ExtractOut :=
  match f.statSize with
  | .error e => ⟨.error e, []⟩
  | .ok n =>
    if n > MAX_SIZE_MB * 1024 * 1024 then
      ⟨.ok (.records [] []), [tooLargeMsg f.name]⟩
    else
      match compute_bbox f with
      | .error e => ⟨.ok (.failure e), []⟩
      | .ok bb =>
        match f.firstBytes with
        | .error e => ⟨.ok (.failure e), []⟩
        | .ok bytes =>
          match f.ncOpen with
          | .error e => ⟨.ok (.failure e), []⟩
          | .ok nc => ⟨.ok (mkRecords f n (xxh64_hexdigest bytes) bb nc), []⟩

/-! ## The SQLite store

`schema.sql` is referenced by `backend/db/init_db.py` but is not among the
repository's source files, so the store semantics are modelled from the
spec's data model. -/

/-- A row of `products`, in the column order of the `INSERT` at lines
198-202, preceded by the generated integer `id`. -/
structure ProductRow where
  id : Nat
  file_path : String
  product_name : String
  datetime_start : String
  datetime_end : String
  satellite : String
  instrument : String
  product_type : String
  size_bytes : Nat
  checksum : Nat
deriving Repr, DecidableEq

/-- A row of `bbox_index` (lines 203-206). -/
structure BboxRow where
  product_id : Nat
  lat_min : Option ℚ
  lat_max : Option ℚ
  lon_min : Option ℚ
  lon_max : Option ℚ
deriving Repr, DecidableEq

/-- Modelled from the spec: `schema.sql` is not in the source tree.  The
spec's data model gives `products` a generated integer id and the global
uniqueness key `(file_path, product_type)`, and gives `bbox_index` at most
one row per product (insert-or-ignore keyed on the resolved product id).
`blocked` models the spec's defensive Batch-Loader case in which the insert
leaves "no row found at all for that key" (an unresolvable key): for a key
in `blocked`, insert-or-ignore is a silent no-op and the re-select finds
nothing.  The normal schema is `blocked = []`. -/
structure Store where
  products : List ProductRow
  bbox_index : List BboxRow
  nextId : Nat
  blocked : List (String × String)
deriving Repr, DecidableEq

/-- The fresh store (`nextId` starts at 1, as SQLite rowids do). -/
def emptyStore : Store := ⟨[], [], 1, []⟩

/-- Modelled from the spec: `INSERT OR IGNORE INTO products ...` — a no-op
when a row with the same `(file_path, product_type)` exists (the spec's
uniqueness key) or when the key is unresolvable (`blocked`); otherwise the
row is appended with the next generated id. -/
def insertProduct (s : Store) (m : Meta) : Store :=
  if s.products.any (fun r => r.file_path == m.file_path && r.product_type == m.product_type) then s
  else if (m.file_path, m.product_type) ∈ s.blocked then s
  else
    { s with
      products := s.products ++
        [⟨s.nextId, m.file_path, m.product_name, m.datetime_start, m.datetime_end,
          m.satellite, m.instrument, m.product_type, m.size_bytes, m.checksum⟩]
      nextId := s.nextId + 1 }

/-- Model of `SELECT id FROM products WHERE file_path = ? AND product_type = ?`
(lines 237-240). -/
def lookupProduct (s : Store) (fp pt : String) : Option Nat :=
  (s.products.find? (fun r => r.file_path == fp && r.product_type == pt)).map (·.id)

/-- Modelled from the spec: `INSERT OR IGNORE INTO bbox_index ...` — a no-op
when the product already has a bbox row (at most one per product), else an
append. -/
def insertBbox (s : Store) (row : BboxRow) : Store :=
  if s.bbox_index.any (fun b => b.product_id == row.product_id) then s
  else { s with bbox_index := s.bbox_index ++ [row] }

/-! ## `_flush` (ingest.py, lines 233-246) and the ingest loop -/

/-- Model of `_flush`: drain the meta queue; for each meta, insert-or-ignore the
product, re-select its id, and — only if a row was found — pop the bbox
queue and insert the bbox row; when no row is found the meta is skipped with
`continue` (note: *without* popping its bbox).  Returns the store and the
remaining bbox queue; `none` models the `IndexError` of popping an empty
bbox deque. -/
def _flush (s : Store) : List Meta → List BBoxV → Option (Store × List BBoxV)
  | [], bboxes => some (s, bboxes)
  | meta :: rest, bboxes =>
    let s1 := insertProduct s meta
    match lookupProduct s1 meta.file_path meta.product_type with
    | none => _flush s1 rest bboxes
    | some prod_id =>
      match bboxes with
      | [] => none
      | b :: brest =>
        _flush (insertBbox s1 ⟨prod_id, b.lat_min, b.lat_max, b.lon_min, b.lon_max⟩) rest brest

/-- Outcome of one ingest run over the store. -/
inductive RunOutcome where
  | done (s : Store)
  | aborted (e : PyExc)
  | stuck
deriving Repr, DecidableEq

/-- The result-consumption loop of `ingest` (lines 214-228), over the
results in arrival order: a worker exception re-raised by `fut.result()`
aborts the run (`aborted`); a captured failure is logged and skipped; record
pairs are zipped into the two batch deques, flushed at the 500 threshold and
once more at the end.  `stuck` models an `IndexError` inside `_flush`. -/
def ingestLoop (s : Store) (bm : List Meta) (bb : List BBoxV) :
    List (Except PyExc ExtractRes) → RunOutcome
  | [] =>
    match _flush s bm bb with
    | none => .stuck
    | some (s', _) => .done s'
  | r :: rest =>
    match r with
    | .error e => .aborted e
    | .ok (.failure _) => ingestLoop s bm bb rest
    | .ok (.records ms bs) =>
      let pairs := ms.zip bs
      let bm' := bm ++ pairs.map (·.1)
      let bb' := bb ++ pairs.map (·.2)
      if 500 ≤ bm'.length then
        match _flush s bm' bb' with
        | none => .stuck
        | some (s', rem) => ingestLoop s' [] rem rest
      else ingestLoop s bm' bb' rest

/-- One whole pipeline run: extract every file (the list is the arrival
order of completed futures) and feed the results through the batch loader. -/
def runPipeline (s : Store) (files : List NCFile) : RunOutcome :=
  ingestLoop s [] [] (files.map (fun f => (extract_metadata f).result))

/-! ## Infrastructure for the pipeline theorems -/

/-- View a `_flush` result as a run outcome (`none` = the `IndexError`). -/
def byOutcome (o : Option (Store × List BBoxV)) : RunOutcome :=
  match o with
  | none => .stuck
  | some (s, _) => .done s

/-- The `(meta, bbox)` pairs one result contributes to the batch deques
(`zip(metas, bboxes)` at line 221); failures contribute nothing. -/
def resPairs : Except PyExc ExtractRes → List (Meta × BBoxV)
  | .ok (.records ms bs) => ms.zip bs
  | _ => []

/-- All pairs a result stream contributes, in arrival order. -/
def pairsOf (rs : List (Except PyExc ExtractRes)) : List (Meta × BBoxV) :=
  rs.flatMap resPairs

/-- The meta stream of a result list. -/
def metasOf (rs : List (Except PyExc ExtractRes)) : List Meta :=
  (pairsOf rs).map Prod.fst

/-- The bbox stream of a result list. -/
def bboxesOf (rs : List (Except PyExc ExtractRes)) : List BBoxV :=
  (pairsOf rs).map Prod.snd

/-- The uniqueness key of a buffered meta tuple. -/
def metaKey (m : Meta) : String × String := (m.file_path, m.product_type)

/-- Replaying `m` against `s` is a no-op: either its key resolves to a
product id that already has a bbox row, or the key is unresolvable
(blocked). -/
def Covered (s : Store) (m : Meta) : Prop :=
  match lookupProduct s m.file_path m.product_type with
  | some i => ∃ b ∈ s.bbox_index, b.product_id = i
  | none => (m.file_path, m.product_type) ∈ s.blocked

/-- The product row inserted for meta `m` under generated id `i`. -/
def rowOf (i : Nat) (m : Meta) : ProductRow :=
  ⟨i, m.file_path, m.product_name, m.datetime_start, m.datetime_end, m.satellite,
    m.instrument, m.product_type, m.size_bytes, m.checksum⟩

/-- The bbox row inserted for product id `i` and bbox value `b`. -/
def bboxRowOf (i : Nat) (b : BBoxV) : BboxRow :=
  ⟨i, b.lat_min, b.lat_max, b.lon_min, b.lon_max⟩

/-- The rows a clean flush of fresh-keyed pairs appends, ids from `n` on. -/
def newRows : Nat → List (Meta × BBoxV) → List ProductRow × List BboxRow
  | _, [] => ([], [])
  | n, (m, b) :: rest =>
    let r := newRows (n + 1) rest
    (rowOf n m :: r.1, bboxRowOf n b :: r.2)

/-- A product row with its generated id stripped (the id-independent content,
which happens to be exactly a `Meta`). -/
def rowContent (r : ProductRow) : Meta :=
  ⟨r.file_path, r.product_name, r.datetime_start, r.datetime_end, r.satellite,
    r.instrument, r.product_type, r.size_bytes, r.checksum⟩

/-- The multiset of product rows of a store, ids stripped. -/
def productContents (s : Store) : Multiset Meta :=
  (s.products.map rowContent : List Meta)

/-- The multiset of bbox rows of a store with `product_id` replaced by the
owning product's `(file_path, product_type)` key. -/
def bboxKeyed (s : Store) :
    Multiset ((String × String) × Option ℚ × Option ℚ × Option ℚ × Option ℚ) :=
  ((s.bbox_index.filterMap (fun b =>
    (s.products.find? (fun p => p.id == b.product_id)).map
      (fun p => ((p.file_path, p.product_type),
        (b.lat_min, b.lat_max, b.lon_min, b.lon_max))))) : List _)

/-! ## Concrete inputs for witnesses and counterexamples -/

/-- A small well-formed file with one alias-matched variable (`sst`). -/
def file_c1 : NCFile :=
  { path := "/data/a.nc", name := "a.nc", stem := "a"
    statSize := .ok 10
    xrOpen := .error ⟨"xr failed"⟩
    ncOpen := .ok { root := .node [⟨"sst", []⟩] .nil
                    start_time := "", stop_time := "", platform := "S3A"
                    source := "", instrument := "SLSTR" }
    firstBytes := .ok [] }

/-- The store a run over `[file_c1]` produces from the empty store. -/
def store_c1 : Store :=
  { products := [⟨1, "/data/a.nc", "Sea Surface Temperature – sst", "", "", "S3A",
      "SLSTR", "sst", 10, 0⟩]
    bbox_index := [⟨1, none, none, none, none⟩]
    nextId := 2, blocked := [] }

/-- A path whose `stat()` raises (e.g. the file vanished between discovery
and extraction). -/
def file_c2 : NCFile :=
  { path := "/data/gone.nc", name := "gone.nc", stem := "gone"
    statSize := .error ⟨"FileNotFoundError"⟩
    xrOpen := .error ⟨"unused"⟩, ncOpen := .error ⟨"unused"⟩
    firstBytes := .error ⟨"unused"⟩ }

/-- A store in which the key of `meta_c3a` is unresolvable (the spec's
defensive Batch-Loader case). -/
def store_c3 : Store := ⟨[], [], 1, [("/data/a.nc", "sst")]⟩

/-- First buffered meta of the C3 flush (unresolvable key). -/
def meta_c3a : Meta := ⟨"/data/a.nc", "A", "", "", "", "", "sst", 1, 0⟩

/-- Second buffered meta of the C3 flush (resolvable key). -/
def meta_c3b : Meta := ⟨"/data/b.nc", "B", "", "", "", "", "sst", 1, 0⟩

/-- The bbox extracted for `meta_c3a`. -/
def bbox_c3a : BBoxV := ⟨some 1, some 1, some 1, some 1⟩

/-- The bbox extracted for `meta_c3b`. -/
def bbox_c3b : BBoxV := ⟨some 2, some 2, some 2, some 2⟩

/-- The netCDF view of `file_c4`: one alias-matched variable, no
coordinate variables anywhere. -/
def ncds_c4 : NCDataset :=
  { root := .node [⟨"sst", []⟩] .nil
    start_time := "", stop_time := "", platform := "S3A"
    source := "", instrument := "SLSTR" }

/-- A file on which every geospatial strategy fails (no coordinate variables
anywhere) but with one alias-matched variable. -/
def file_c4 : NCFile :=
  { path := "/data/c.nc", name := "c.nc", stem := "c"
    statSize := .ok 10
    xrOpen := .error ⟨"xr failed"⟩
    ncOpen := .ok ncds_c4
    firstBytes := .ok [] }

/-- The store a run over `[file_c4]` produces from the empty store. -/
def store_c4 : Store :=
  { products := [⟨1, "/data/c.nc", "Sea Surface Temperature – sst", "", "", "S3A",
      "SLSTR", "sst", 10, 0⟩]
    bbox_index := [⟨1, none, none, none, none⟩]
    nextId := 2, blocked := [] }

/-- A file over the 700 MiB size guard. -/
def file_c5 : NCFile :=
  { path := "/data/big.nc", name := "big.nc", stem := "big"
    statSize := .ok (800 * 1024 * 1024)
    xrOpen := .error ⟨"unused"⟩, ncOpen := .error ⟨"unused"⟩
    firstBytes := .error ⟨"unused"⟩ }

/-- A file with the same size and name as `file_c5` but very different
contents — used to state that the guard never opens the file. -/
def file_c5b : NCFile :=
  { path := "/other/big.nc", name := "big.nc", stem := "big"
    statSize := .ok (800 * 1024 * 1024)
    xrOpen := .ok ⟨[⟨"lat", "", [some 1]⟩]⟩
    ncOpen := .ok { root := .node [⟨"sst", []⟩] .nil
                    start_time := "2020-01-01", stop_time := "2020-01-02"
                    platform := "X", source := "Y Z", instrument := "W" }
    firstBytes := .ok [9, 9, 9] }

/-- The netCDF view of `file_c6`: `start_time` parseable, `stop_time`
absent. -/
def ncds_c6 : NCDataset :=
  { root := .node [⟨"sst", []⟩] .nil
    start_time := "2024-01-02T03:04:05", stop_time := ""
    platform := "S3A", source := "", instrument := "" }

/-- The single record extracted from `file_c6`. -/
def meta_c6 : Meta :=
  { file_path := "/data/t.nc", product_name := "Sea Surface Temperature – sst"
    datetime_start := "2024-01-02T03:04:05", datetime_end := "2023-06-02T13:00:00"
    satellite := "S3A", instrument := "", product_type := "sst", size_bytes := 10
    checksum := 0 }

/-- A file whose `start_time` attribute parses but whose `stop_time` is
absent, with a filename-embedded timestamp pair. -/
def file_c6 : NCFile :=
  { path := "/data/t.nc", name := "t.nc"
    stem := "x_20230601T120000_20230602T130000"
    statSize := .ok 10
    xrOpen := .error ⟨"xr failed"⟩
    ncOpen := .ok ncds_c6
    firstBytes := .ok [] }

/-- The netCDF view of `file_c7`: two alias-matched variables (one in a
nested group), one unmatched variable, identification only via `source`. -/
def ncds_c7 : NCDataset :=
  { root := .node [⟨"sst", []⟩, ⟨"foo", []⟩]
      (.cons (.node [⟨"wind_speed", []⟩] .nil) .nil)
    start_time := "", stop_time := "", platform := ""
    source := "S3B SLSTR x", instrument := "I" }

/-- A file with two alias-matched variables (one in a nested group), one
unmatched variable, and identification only via the `source` attribute. -/
def file_c7 : NCFile :=
  { path := "/data/m.nc", name := "m.nc", stem := "m"
    statSize := .ok 20
    xrOpen := .error ⟨"xr failed"⟩
    ncOpen := .ok ncds_c7
    firstBytes := .ok [3] }

/-- An xarray dataset with no direct coordinates but exactly four per-axis
pixel-corner variables. -/
def ds_c8 : XrDataset :=
  { vars := [
      ⟨"pixel_corner_latitude_Corner1", "", [some 1]⟩,
      ⟨"pixel_corner_latitude_Corner2", "", [some 2]⟩,
      ⟨"pixel_corner_latitude_Corner3", "", [some 3]⟩,
      ⟨"pixel_corner_latitude_Corner4", "", [some 4]⟩,
      ⟨"pixel_corner_longitude_Corner1", "", [some 10]⟩,
      ⟨"pixel_corner_longitude_Corner2", "", [some 20]⟩,
      ⟨"pixel_corner_longitude_Corner3", "", [some 30]⟩,
      ⟨"pixel_corner_longitude_Corner4", "", [some 40]⟩] }

/-- The file carrying `ds_c8`. -/
def file_c8 : NCFile :=
  { path := "/data/corner.nc", name := "corner.nc", stem := "corner"
    statSize := .ok 30
    xrOpen := .ok ds_c8
    ncOpen := .error ⟨"unused"⟩, firstBytes := .error ⟨"unused"⟩ }

/-- First independent file of the C9 pair. -/
def file_c9a : NCFile :=
  { path := "/data/p.nc", name := "p.nc", stem := "p"
    statSize := .ok 5
    xrOpen := .error ⟨"xr failed"⟩
    ncOpen := .ok { root := .node [⟨"sst", []⟩] .nil
                    start_time := "", stop_time := "", platform := "S3A"
                    source := "", instrument := "" }
    firstBytes := .ok [] }

/-- Second independent file of the C9 pair. -/
def file_c9b : NCFile :=
  { path := "/data/q.nc", name := "q.nc", stem := "q"
    statSize := .ok 5
    xrOpen := .error ⟨"xr failed"⟩
    ncOpen := .ok { root := .node [⟨"wind_speed", []⟩] .nil
                    start_time := "", stop_time := "", platform := "S3B"
                    source := "", instrument := "" }
    firstBytes := .ok [] }

/-- Final store for arrival order `[file_c9a, file_c9b]`. -/
def store_c9ab : Store :=
  { products := [
      ⟨1, "/data/p.nc", "Sea Surface Temperature – sst", "", "", "S3A", "", "sst", 5, 0⟩,
      ⟨2, "/data/q.nc", "Wind Speed – wind_speed", "", "", "S3B", "", "wind_speed", 5, 0⟩]
    bbox_index := [⟨1, none, none, none, none⟩, ⟨2, none, none, none, none⟩]
    nextId := 3, blocked := [] }

/-- Final store for arrival order `[file_c9b, file_c9a]`: the same contents
carry the opposite generated ids. -/
def store_c9ba : Store :=
  { products := [
      ⟨1, "/data/q.nc", "Wind Speed – wind_speed", "", "", "S3B", "", "wind_speed", 5, 0⟩,
      ⟨2, "/data/p.nc", "Sea Surface Temperature – sst", "", "", "S3A", "", "sst", 5, 0⟩]
    bbox_index := [⟨1, none, none, none, none⟩, ⟨2, none, none, none, none⟩]
    nextId := 3, blocked := [] }

/-! ## Support lemmas -/

theorem strftimeISO_ne_empty (d : DT) : strftimeISO d ≠ "" := by
  intro h
  have h2 : (strftimeISO d).data = "".data := by rw [h]
  simp [strftimeISO] at h2

/-- Claim C10 — Filename timestamp recovery is all-or-nothing: for every
stem, `extract_times_from_filename` returns two empty strings or two
non-empty `strftime`-normalized timestamps; it never returns exactly one
non-empty value. -/
theorem extract_times_all_or_nothing (stem : String) :
    ((extract_times_from_filename stem).1 = "" ↔ (extract_times_from_filename stem).2 = "") ∧
    ((extract_times_from_filename stem).1 ≠ "" →
      ∃ d1 d2, extract_times_from_filename stem = (strftimeISO d1, strftimeISO d2)) := by
  unfold extract_times_from_filename
  cases searchTimestampPair stem.data with
  | none => simp
  | some p =>
    obtain ⟨g1, g2⟩ := p
    cases h1 : du_isoparse g1 <;> cases h2 : du_isoparse g2 <;>
      simp [h1, h2, strftimeISO_ne_empty]

/-! ## Lemmas about `_flush` -/

theorem flush_append (M1 : List Meta) : ∀ (s : Store) (M2 : List Meta) (B : List BBoxV),
    _flush s (M1 ++ M2) B =
      match _flush s M1 B with
      | none => none
      | some (s1, rem) => _flush s1 M2 rem := by
  induction M1 with
  | nil => intro s M2 B; simp [_flush]
  | cons m rest ih =>
    intro s M2 B
    simp only [List.cons_append, _flush]
    cases lookupProduct (insertProduct s m) m.file_path m.product_type with
    | none => exact ih _ _ _
    | some pid =>
      cases B with
      | nil => rfl
      | cons b br => exact ih _ _ _

theorem flush_extend (M : List Meta) : ∀ (s : Store) (B1 B2 : List BBoxV) (s' : Store)
    (rem : List BBoxV), _flush s M B1 = some (s', rem) →
    _flush s M (B1 ++ B2) = some (s', rem ++ B2) := by
  induction M with
  | nil =>
    intro s B1 B2 s' rem h
    simp only [_flush] at h ⊢
    cases Option.some.inj h
    rfl
  | cons m rest ih =>
    intro s B1 B2 s' rem h
    simp only [_flush] at h ⊢
    cases hl : lookupProduct (insertProduct s m) m.file_path m.product_type with
    | none =>
      rw [hl] at h
      exact ih _ _ _ _ _ h
    | some pid =>
      rw [hl] at h
      cases B1 with
      | nil => simp at h
      | cons b br =>
        simp only [List.cons_append]
        exact ih _ _ _ _ _ h

theorem flush_total (M : List Meta) : ∀ (s : Store) (B : List BBoxV),
    M.length ≤ B.length → ∃ s' rem, _flush s M B = some (s', rem) := by
  induction M with
  | nil => intro s B _; exact ⟨s, B, rfl⟩
  | cons m rest ih =>
    intro s B hlen
    simp only [_flush]
    cases lookupProduct (insertProduct s m) m.file_path m.product_type with
    | none =>
      exact ih _ _ (le_trans (Nat.le_succ _) (by simpa using hlen))
    | some pid =>
      cases B with
      | nil => simp at hlen
      | cons b br => exact ih _ _ (by simpa using hlen)

/-! ## Store-operation lemmas -/

theorem blocked_insertProduct (s : Store) (m : Meta) :
    (insertProduct s m).blocked = s.blocked := by
  unfold insertProduct
  split
  · rfl
  · split <;> rfl

theorem blocked_insertBbox (s : Store) (r : BboxRow) :
    (insertBbox s r).blocked = s.blocked := by
  unfold insertBbox
  split <;> rfl

theorem products_insertBbox (s : Store) (r : BboxRow) :
    (insertBbox s r).products = s.products := by
  unfold insertBbox
  split <;> rfl

theorem bbox_insertProduct (s : Store) (m : Meta) :
    (insertProduct s m).bbox_index = s.bbox_index := by
  unfold insertProduct
  split
  · rfl
  · split <;> rfl

theorem bbox_mono_insertBbox (s : Store) (r : BboxRow) (b : BboxRow)
    (hb : b ∈ s.bbox_index) : b ∈ (insertBbox s r).bbox_index := by
  unfold insertBbox
  split
  · exact hb
  · exact List.mem_append_left _ hb

theorem lookup_insertBbox (s : Store) (r : BboxRow) (fp pt : String) :
    lookupProduct (insertBbox s r) fp pt = lookupProduct s fp pt := by
  unfold lookupProduct
  rw [products_insertBbox]

theorem lookup_mono_insertProduct (s : Store) (m : Meta) (fp pt : String) (i : Nat)
    (h : lookupProduct s fp pt = some i) :
    lookupProduct (insertProduct s m) fp pt = some i := by
  unfold lookupProduct at h ⊢
  unfold insertProduct
  split
  · exact h
  · split
    · exact h
    · obtain ⟨r, hr, hid⟩ := Option.map_eq_some'.mp h
      simp only [List.find?_append, hr, Option.or_some, Option.map_some']
      exact congrArg some hid

theorem lookup_insertProduct_none (s : Store) (m : Meta)
    (h : lookupProduct (insertProduct s m) m.file_path m.product_type = none) :
    (m.file_path, m.product_type) ∈ s.blocked ∧
      lookupProduct s m.file_path m.product_type = none := by
  unfold lookupProduct insertProduct at h
  by_cases hany :
      s.products.any (fun r => r.file_path == m.file_path && r.product_type == m.product_type) = true
  · rw [if_pos hany] at h
    obtain ⟨r, hr, hp⟩ := List.any_eq_true.mp hany
    rw [Option.map_eq_none'] at h
    rw [List.find?_eq_none] at h
    exact absurd hp (by simpa using h r hr)
  · rw [if_neg hany] at h
    by_cases hbl : (m.file_path, m.product_type) ∈ s.blocked
    · rw [if_pos hbl] at h
      exact ⟨hbl, by unfold lookupProduct; exact h⟩
    · rw [if_neg hbl] at h
      rw [Option.map_eq_none', List.find?_append] at h
      cases hfl : s.products.find?
          (fun r => r.file_path == m.file_path && r.product_type == m.product_type) with
      | some r => rw [hfl] at h; simp at h
      | none =>
        rw [hfl, Option.none_or] at h
        rw [List.find?_cons_of_pos _ (by simp)] at h
        exact Option.noConfusion h

theorem covered_insertProduct (s : Store) (m m' : Meta) (hc : Covered s m) :
    Covered (insertProduct s m') m := by
  unfold Covered at hc ⊢
  cases h : lookupProduct s m.file_path m.product_type with
  | some i =>
    rw [h] at hc
    rw [lookup_mono_insertProduct s m' _ _ i h, bbox_insertProduct]
    exact hc
  | none =>
    rw [h] at hc
    cases h2 : lookupProduct (insertProduct s m') m.file_path m.product_type with
    | none => rw [blocked_insertProduct]; exact hc
    | some i =>
      exfalso
      unfold lookupProduct insertProduct at h2
      by_cases hany : s.products.any
          (fun r => r.file_path == m'.file_path && r.product_type == m'.product_type) = true
      · rw [if_pos hany] at h2
        unfold lookupProduct at h
        rw [h] at h2
        exact Option.noConfusion h2
      · rw [if_neg hany] at h2
        by_cases hbl : (m'.file_path, m'.product_type) ∈ s.blocked
        · rw [if_pos hbl] at h2
          unfold lookupProduct at h
          rw [h] at h2
          exact Option.noConfusion h2
        · rw [if_neg hbl] at h2
          rw [Option.map_eq_some'] at h2
          obtain ⟨r, hr, _⟩ := h2
          rw [List.find?_append] at hr
          unfold lookupProduct at h
          rw [Option.map_eq_none'] at h
          rw [h, Option.none_or] at hr
          have hmem := List.mem_singleton.mp (List.mem_of_find?_eq_some hr)
          have hp := List.find?_some hr
          rw [hmem] at hp
          simp only [Bool.and_eq_true, beq_iff_eq] at hp
          exact hbl (by rw [hp.1, hp.2]; exact hc)

theorem covered_insertBbox (s : Store) (m : Meta) (r : BboxRow) (hc : Covered s m) :
    Covered (insertBbox s r) m := by
  unfold Covered at hc ⊢
  rw [lookup_insertBbox]
  cases h : lookupProduct s m.file_path m.product_type with
  | some i =>
    rw [h] at hc
    obtain ⟨b, hb, hbid⟩ := hc
    exact ⟨b, bbox_mono_insertBbox s r b hb, hbid⟩
  | none =>
    rw [h] at hc
    rw [blocked_insertBbox]
    exact hc

theorem bbox_has_insertBbox_self (s : Store) (row : BboxRow) :
    ∃ r ∈ (insertBbox s row).bbox_index, r.product_id = row.product_id := by
  unfold insertBbox
  split
  · next hany =>
      obtain ⟨r, hr, hp⟩ := List.any_eq_true.mp hany
      exact ⟨r, hr, by simpa using hp⟩
  · exact ⟨row, List.mem_append_right _ (List.mem_singleton_self _), rfl⟩

theorem insertProduct_of_present (s : Store) (m : Meta) (i : Nat)
    (h : lookupProduct s m.file_path m.product_type = some i) :
    insertProduct s m = s := by
  unfold insertProduct
  have hany : s.products.any
      (fun r => r.file_path == m.file_path && r.product_type == m.product_type) = true := by
    unfold lookupProduct at h
    rw [Option.map_eq_some'] at h
    obtain ⟨r, hr, _⟩ := h
    have hmem := List.mem_of_find?_eq_some hr
    have hp := List.find?_some hr
    exact List.any_eq_true.mpr ⟨r, hmem, hp⟩
  rw [if_pos hany]

theorem insertProduct_of_blocked (s : Store) (m : Meta)
    (hnone : lookupProduct s m.file_path m.product_type = none)
    (hbl : (m.file_path, m.product_type) ∈ s.blocked) : insertProduct s m = s := by
  unfold insertProduct
  have hany : ¬ (s.products.any
      (fun r => r.file_path == m.file_path && r.product_type == m.product_type) = true) := by
    unfold lookupProduct at hnone
    rw [Option.map_eq_none', List.find?_eq_none] at hnone
    rw [List.any_eq_true]
    rintro ⟨r, hr, hp⟩
    exact hnone r hr hp
  rw [if_neg hany, if_pos hbl]

theorem insertBbox_of_present (s : Store) (row : BboxRow)
    (h : ∃ b ∈ s.bbox_index, b.product_id = row.product_id) : insertBbox s row = s := by
  unfold insertBbox
  obtain ⟨b, hb, hid⟩ := h
  rw [if_pos (List.any_eq_true.mpr ⟨b, hb, by simpa using hid⟩)]

theorem covered_flush (M : List Meta) : ∀ (s : Store) (B : List BBoxV) (s' : Store)
    (rem : List BBoxV) (m : Meta),
    _flush s M B = some (s', rem) → Covered s m → Covered s' m := by
  induction M with
  | nil =>
    intro s B s' rem m h hc
    simp only [_flush] at h
    cases Option.some.inj h
    exact hc
  | cons m0 rest ih =>
    intro s B s' rem m h hc
    simp only [_flush] at h
    cases hl : lookupProduct (insertProduct s m0) m0.file_path m0.product_type with
    | none =>
      rw [hl] at h
      exact ih _ _ _ _ _ h (covered_insertProduct _ _ _ hc)
    | some pid =>
      rw [hl] at h
      cases B with
      | nil => simp at h
      | cons b br =>
        exact ih _ _ _ _ _ h (covered_insertBbox _ _ _ (covered_insertProduct _ _ _ hc))

theorem flush_covered_all (M : List Meta) : ∀ (s : Store) (B : List BBoxV) (s' : Store)
    (rem : List BBoxV), _flush s M B = some (s', rem) → ∀ m ∈ M, Covered s' m := by
  induction M with
  | nil => intro s B s' rem _ m hm; simp at hm
  | cons m0 rest ih =>
    intro s B s' rem h m hm
    simp only [_flush] at h
    rcases List.mem_cons.mp hm with rfl | hmr
    · cases hl : lookupProduct (insertProduct s m) m.file_path m.product_type with
      | none =>
        rw [hl] at h
        have hbl := lookup_insertProduct_none s m hl
        have hcov : Covered (insertProduct s m) m := by
          unfold Covered
          rw [hl, blocked_insertProduct]
          exact hbl.1
        exact covered_flush rest _ _ _ _ _ h hcov
      | some pid =>
        rw [hl] at h
        cases B with
        | nil => simp at h
        | cons b br =>
          have hcov : Covered (insertBbox (insertProduct s m)
              ⟨pid, b.lat_min, b.lat_max, b.lon_min, b.lon_max⟩) m := by
            unfold Covered
            rw [lookup_insertBbox, hl]
            exact bbox_has_insertBbox_self _ _
          exact covered_flush rest _ _ _ _ _ h hcov
    · cases hl : lookupProduct (insertProduct s m0) m0.file_path m0.product_type with
      | none =>
        rw [hl] at h
        exact ih _ _ _ _ h m hmr
      | some pid =>
        rw [hl] at h
        cases B with
        | nil => simp at h
        | cons b br => exact ih _ _ _ _ h m hmr

theorem flush_fixed (M : List Meta) : ∀ (s : Store) (B : List BBoxV),
    (∀ m ∈ M, Covered s m) → M.length ≤ B.length →
    ∃ rem, _flush s M B = some (s, rem) := by
  induction M with
  | nil => intro s B _ _; exact ⟨B, rfl⟩
  | cons m0 rest ih =>
    intro s B hc hlen
    have hc0 := hc m0 (List.mem_cons_self _ _)
    unfold Covered at hc0
    cases hl : lookupProduct s m0.file_path m0.product_type with
    | some i =>
      rw [hl] at hc0
      have hip := insertProduct_of_present s m0 i hl
      cases B with
      | nil => exact absurd hlen (by simp)
      | cons b br =>
        obtain ⟨rem, hrest⟩ :=
          ih s br (fun m hm => hc m (List.mem_cons_of_mem _ hm)) (by simpa using hlen)
        refine ⟨rem, ?_⟩
        simp only [_flush, hip, hl]
        rw [insertBbox_of_present s _ (by simpa using hc0)]
        exact hrest
    | none =>
      rw [hl] at hc0
      have hip := insertProduct_of_blocked s m0 hl hc0
      obtain ⟨rem, hrest⟩ :=
        ih s B (fun m hm => hc m (List.mem_cons_of_mem _ hm))
          (le_trans (Nat.le_succ _) (by simpa using hlen))
      refine ⟨rem, ?_⟩
      simp only [_flush, hip, hl]
      exact hrest

/-! ## Lemmas about the ingest loop -/

theorem metasOf_cons (r : Except PyExc ExtractRes) (rs : List (Except PyExc ExtractRes)) :
    metasOf (r :: rs) = (resPairs r).map Prod.fst ++ metasOf rs := by
  simp [metasOf, pairsOf]

theorem bboxesOf_cons (r : Except PyExc ExtractRes) (rs : List (Except PyExc ExtractRes)) :
    bboxesOf (r :: rs) = (resPairs r).map Prod.snd ++ bboxesOf rs := by
  simp [bboxesOf, pairsOf]

theorem length_metasOf (rs : List (Except PyExc ExtractRes)) :
    (metasOf rs).length = (bboxesOf rs).length := by
  simp [metasOf, bboxesOf]

theorem ingestLoop_done_no_error (rs : List (Except PyExc ExtractRes)) :
    ∀ (s : Store) (bm : List Meta) (bb : List BBoxV) (s1 : Store),
    ingestLoop s bm bb rs = .done s1 → ∀ r ∈ rs, ∀ e, r ≠ .error e := by
  induction rs with
  | nil => intro s bm bb s1 _ r hr; simp at hr
  | cons r0 rest ih =>
    intro s bm bb s1 h r hr e heq
    subst heq
    cases r0 with
    | error e0 =>
      simp only [ingestLoop] at h
      exact RunOutcome.noConfusion h
    | ok res =>
      have hmr : Except.error e ∈ rest := by
        rcases List.mem_cons.mp hr with habs | hmr
        · exact Except.noConfusion habs
        · exact hmr
      cases res with
      | failure e0 =>
        simp only [ingestLoop] at h
        exact ih _ _ _ _ h _ hmr e rfl
      | records ms bs =>
        simp only [ingestLoop] at h
        split at h
        · split at h
          · exact RunOutcome.noConfusion h
          · exact ih _ _ _ _ h _ hmr e rfl
        · exact ih _ _ _ _ h _ hmr e rfl

theorem ingestLoop_eq (rs : List (Except PyExc ExtractRes)) :
    ∀ (s : Store) (bm : List Meta) (bb : List BBoxV),
    (∀ r ∈ rs, ∀ e, r ≠ .error e) → bm.length ≤ bb.length →
    ingestLoop s bm bb rs = byOutcome (_flush s (bm ++ metasOf rs) (bb ++ bboxesOf rs)) := by
  induction rs with
  | nil =>
    intro s bm bb _ _
    have h1 : metasOf ([] : List (Except PyExc ExtractRes)) = [] := rfl
    have h2 : bboxesOf ([] : List (Except PyExc ExtractRes)) = [] := rfl
    rw [h1, h2, List.append_nil, List.append_nil]
    rfl
  | cons r0 rest ih =>
    intro s bm bb hne hlen
    have hne' : ∀ r ∈ rest, ∀ e, r ≠ .error e := fun r hr => hne r (List.mem_cons_of_mem _ hr)
    cases r0 with
    | error e => exact absurd rfl (hne _ (List.mem_cons_self _ _) e)
    | ok res =>
      cases res with
      | failure e =>
        rw [metasOf_cons, bboxesOf_cons]
        have hrp : resPairs (Except.ok (ExtractRes.failure e)) = [] := rfl
        rw [hrp]
        simp only [List.map_nil, List.nil_append]
        simp only [ingestLoop]
        exact ih s bm bb hne' hlen
      | records ms bs =>
        rw [metasOf_cons, bboxesOf_cons]
        have hrp : resPairs (Except.ok (ExtractRes.records ms bs)) = ms.zip bs := rfl
        rw [hrp]
        simp only [ingestLoop]
        have hlen' : (bm ++ (ms.zip bs).map Prod.fst).length ≤
            (bb ++ (ms.zip bs).map Prod.snd).length := by
          simp only [List.length_append, List.length_map]
          omega
        by_cases h500 : 500 ≤ (bm ++ (ms.zip bs).map Prod.fst).length
        · rw [if_pos h500]
          obtain ⟨s1, rem, hf⟩ := flush_total _ s _ hlen'
          rw [hf]
          show ingestLoop s1 [] rem rest = _
          rw [ih s1 [] rem hne' (by simp)]
          simp only [List.nil_append]
          rw [← List.append_assoc, ← List.append_assoc]
          rw [flush_append]
          rw [flush_extend _ s _ (bboxesOf rest) s1 rem hf]
        · rw [if_neg h500]
          rw [ih s _ _ hne' hlen']
          rw [← List.append_assoc, ← List.append_assoc]

/-- Claim C1 — Idempotence: if a whole pipeline run over a file set ends in
store `s1`, then a second run over the same (unchanged) file set — in any
arrival order — leaves the store exactly at `s1`; in particular the final
`products` and `bbox_index` row counts after the second run equal the counts
after the first run.  (The store semantics are modelled from the spec, as
`schema.sql` is not in the source tree.) -/
theorem pipeline_rerun_is_noop (s : Store) (files files2 : List NCFile) (s1 : Store)
    (h1 : runPipeline s files = .done s1) (hperm : files2.Perm files) :
    runPipeline s1 files2 = .done s1 ∧
    ∀ s2, runPipeline s1 files2 = .done s2 →
      s2.products.length = s1.products.length ∧
      s2.bbox_index.length = s1.bbox_index.length := by
  have hne := ingestLoop_done_no_error _ _ _ _ _ h1
  unfold runPipeline at h1
  rw [ingestLoop_eq _ s [] [] hne (by simp)] at h1
  simp only [List.nil_append] at h1
  cases hf : _flush s (metasOf (files.map (fun f => (extract_metadata f).result)))
      (bboxesOf (files.map (fun f => (extract_metadata f).result))) with
  | none => rw [hf] at h1; exact absurd h1 (by simp [byOutcome])
  | some p =>
    obtain ⟨sf, rem⟩ := p
    rw [hf] at h1
    have hs1 : sf = s1 := by simpa [byOutcome] using h1
    subst hs1
    have hcov := flush_covered_all _ _ _ _ _ hf
    have hrs2 : (files2.map (fun f => (extract_metadata f).result)).Perm
        (files.map (fun f => (extract_metadata f).result)) := hperm.map _
    have hne2 : ∀ r ∈ files2.map (fun f => (extract_metadata f).result), ∀ e,
        r ≠ .error e := fun r hr => hne r (hrs2.subset hr)
    have hcov2 : ∀ m ∈ metasOf (files2.map (fun f => (extract_metadata f).result)),
        Covered sf m := by
      intro m hm
      apply hcov
      have hmp : (metasOf (files2.map (fun f => (extract_metadata f).result))).Perm
          (metasOf (files.map (fun f => (extract_metadata f).result))) :=
        (List.Perm.flatMap_right resPairs hrs2).map Prod.fst
      exact hmp.subset hm
    obtain ⟨rem2, hf2⟩ := flush_fixed _ sf _ hcov2 (le_of_eq (length_metasOf _))
    have hmain : runPipeline sf files2 = .done sf := by
      unfold runPipeline
      rw [ingestLoop_eq _ sf [] [] hne2 (by simp)]
      simp only [List.nil_append]
      rw [hf2]
      rfl
    refine ⟨hmain, fun s2 h2 => ?_⟩
    rw [hmain] at h2
    cases RunOutcome.done.inj h2
    exact ⟨rfl, rfl⟩

set_option maxRecDepth 40000 in
/-- Witness for C1: a concrete first run over `[file_c1]` reaches
`store_c1`, and the theorem yields that the second run is a no-op. -/
theorem pipeline_rerun_is_noop_witness :
    runPipeline emptyStore [file_c1] = .done store_c1 ∧
    runPipeline store_c1 [file_c1] = .done store_c1 := by
  refine ⟨by decide, ?_⟩
  exact (pipeline_rerun_is_noop emptyStore [file_c1] [file_c1] store_c1 (by decide)
    (List.Perm.refl _)).1

/-- Claim C2 (code bug): the size guard (lines 97-99) runs *before* the
`try` block, so a file whose `stat()` raises makes `extract_metadata`
propagate the exception instead of returning a captured failure, and
`ingest` re-raises it at `fut.result()` outside any handler: the run
aborts on one bad file. -/
theorem extract_metadata_stat_error_escapes :
    (extract_metadata file_c2).result = .error ⟨"FileNotFoundError"⟩ ∧
    runPipeline emptyStore [file_c2] = .aborted ⟨"FileNotFoundError"⟩ :=
  ⟨by decide, by decide⟩

/-- Claim C3 (code bug): when a meta's key is unresolvable, `_flush` pops
the meta but *not* its bbox (`continue` at line 243 skips the
`bboxes.popleft()`), so the next product is paired with the skipped
record's bbox: here the product built from `meta_c3b` receives
`bbox_c3a`'s coordinates and `bbox_c3b` is left in the queue. -/
theorem flush_skip_misaligns_bboxes :
    _flush store_c3 [meta_c3a, meta_c3b] [bbox_c3a, bbox_c3b] =
      some (⟨[⟨1, "/data/b.nc", "B", "", "", "", "", "sst", 1, 0⟩],
             [⟨1, some 1, some 1, some 1, some 1⟩], 2, [("/data/a.nc", "sst")]⟩,
            [bbox_c3b]) := by decide

set_option maxRecDepth 40000 in
/-- Counterexample to claim C4 as stated: on a file where every geospatial
strategy fails, the pipeline still creates a `bbox_index` row — with all
coordinates NULL — for the file's product, rather than omitting the row. -/
theorem failed_bbox_creates_null_row :
    runPipeline emptyStore [file_c4] = .done store_c4 ∧
    store_c4.bbox_index = [⟨1, none, none, none, none⟩] :=
  ⟨by decide, rfl⟩

/-- Counterexample to claim C5 as stated: the size-guard skip is *not*
silent — a warning line naming the file is printed. -/
theorem size_guard_logs_warning :
    (extract_metadata file_c5).result = .ok (.records [] []) ∧
    (extract_metadata file_c5).logs ≠ [] :=
  ⟨by decide, by decide⟩

/-- Claim C5 as amended: a file over the size threshold yields zero records
immediately — an empty result, not a failure — and is never opened for
content parsing (any file with the same size and name gives the same
output, whatever its contents); but the skip is logged with a warning line
naming the file, not silent. -/
theorem size_guard_empty_result_logged (f g : NCFile) (n : Nat)
    (hf : f.statSize = .ok n) (hg : g.statSize = .ok n) (hname : f.name = g.name)
    (hbig : n > MAX_SIZE_MB * 1024 * 1024) :
    extract_metadata f = extract_metadata g ∧
    (extract_metadata f).result = .ok (.records [] []) ∧
    (extract_metadata f).logs = [tooLargeMsg f.name] := by
  unfold extract_metadata
  rw [hf, hg, hname]
  simp [hbig]

/-- Witness for C5: the two concrete over-threshold files with equal size
and name but different contents. -/
theorem size_guard_empty_result_logged_witness :
    file_c5.statSize = .ok (800 * 1024 * 1024) ∧
    file_c5b.statSize = .ok (800 * 1024 * 1024) ∧
    file_c5.name = file_c5b.name ∧
    800 * 1024 * 1024 > MAX_SIZE_MB * 1024 * 1024 ∧
    (extract_metadata file_c5 = extract_metadata file_c5b ∧
     (extract_metadata file_c5).result = .ok (.records [] []) ∧
     (extract_metadata file_c5).logs = [tooLargeMsg file_c5.name]) :=
  ⟨rfl, rfl, rfl, by decide,
    size_guard_empty_result_logged file_c5 file_c5b _ rfl rfl rfl (by decide)⟩

/-! ## Characterization of a clean flush (fresh distinct keys, no blocking) -/

theorem newRows_bbox_id_ge (L : List (Meta × BBoxV)) : ∀ (n : Nat),
    ∀ b ∈ (newRows n L).2, n ≤ b.product_id := by
  induction L with
  | nil => intro n b hb; simp [newRows] at hb
  | cons p rest ih =>
    intro n b hb
    simp only [newRows, List.mem_cons] at hb
    rcases hb with rfl | hb
    · exact le_refl _
    · exact le_trans (Nat.le_succ _) (ih (n + 1) b hb)

theorem newRows_content (L : List (Meta × BBoxV)) : ∀ (n : Nat),
    ((newRows n L).1).map rowContent = L.map Prod.fst := by
  induction L with
  | nil => intro n; rfl
  | cons p rest ih =>
    intro n
    simp only [newRows, List.map_cons]
    rw [ih (n + 1)]
    rfl

theorem newRows_keyed (L : List (Meta × BBoxV)) : ∀ (n : Nat),
    (newRows n L).2.filterMap (fun b =>
      ((newRows n L).1.find? (fun p => p.id == b.product_id)).map
        (fun p => ((p.file_path, p.product_type),
          (b.lat_min, b.lat_max, b.lon_min, b.lon_max)))) =
    L.map (fun x => (metaKey x.1,
      (x.2.lat_min, x.2.lat_max, x.2.lon_min, x.2.lon_max))) := by
  induction L with
  | nil => intro n; rfl
  | cons p rest ih =>
    obtain ⟨m, b⟩ := p
    intro n
    simp only [newRows, List.filterMap_cons]
    rw [List.find?_cons_of_pos _ (by simp [rowOf, bboxRowOf])]
    simp only [Option.map_some']
    have hrest : (newRows (n + 1) rest).2.filterMap (fun b =>
        ((rowOf n m :: (newRows (n + 1) rest).1).find? (fun p => p.id == b.product_id)).map
          (fun p => ((p.file_path, p.product_type),
            (b.lat_min, b.lat_max, b.lon_min, b.lon_max)))) =
        (newRows (n + 1) rest).2.filterMap (fun b =>
        ((newRows (n + 1) rest).1.find? (fun p => p.id == b.product_id)).map
          (fun p => ((p.file_path, p.product_type),
            (b.lat_min, b.lat_max, b.lon_min, b.lon_max)))) := by
      apply List.filterMap_congr
      intro b2 hb2
      have hge := newRows_bbox_id_ge rest (n + 1) b2 hb2
      rw [List.find?_cons_of_neg _ (by simp [rowOf]; omega)]
    rw [hrest, ih (n + 1)]
    rfl

theorem flush_clean (L : List (Meta × BBoxV)) : ∀ (s : Store),
    s.blocked = [] →
    ((L.map Prod.fst).map metaKey).Nodup →
    (∀ m ∈ L.map Prod.fst, ∀ r ∈ s.products,
      ¬(r.file_path = m.file_path ∧ r.product_type = m.product_type)) →
    (∀ r ∈ s.products, r.id < s.nextId) →
    (∀ b ∈ s.bbox_index, b.product_id < s.nextId) →
    _flush s (L.map Prod.fst) (L.map Prod.snd) =
      some ({ products := s.products ++ (newRows s.nextId L).1
              bbox_index := s.bbox_index ++ (newRows s.nextId L).2
              nextId := s.nextId + L.length
              blocked := [] }, []) := by
  induction L with
  | nil =>
    intro s hbl _ _ _ _
    obtain ⟨ps, bs, n, bl⟩ := s
    simp only at hbl
    subst hbl
    simp [_flush, newRows]
  | cons p rest ih =>
    obtain ⟨m, b⟩ := p
    intro s hbl hnd hfresh hpid hbid
    have hany : ¬ (s.products.any
        (fun r => r.file_path == m.file_path && r.product_type == m.product_type) = true) := by
      rw [List.any_eq_true]
      rintro ⟨r, hr, hp⟩
      simp only [Bool.and_eq_true, beq_iff_eq] at hp
      exact hfresh m (by simp) r hr hp
    have hblm : (m.file_path, m.product_type) ∉ s.blocked := by rw [hbl]; simp
    have hip : insertProduct s m =
        { s with products := s.products ++ [rowOf s.nextId m], nextId := s.nextId + 1 } := by
      unfold insertProduct
      rw [if_neg hany, if_neg hblm]
      rfl
    have hfind : s.products.find?
        (fun r => r.file_path == m.file_path && r.product_type == m.product_type) = none := by
      rw [List.find?_eq_none]
      intro r hr hp
      rw [List.any_eq_true] at hany
      exact hany ⟨r, hr, hp⟩
    have hlk : lookupProduct (insertProduct s m) m.file_path m.product_type =
        some s.nextId := by
      rw [hip]
      unfold lookupProduct
      simp only [List.find?_append, hfind, Option.none_or]
      rw [List.find?_cons_of_pos _ (by simp [rowOf])]
      rfl
    have hib : insertBbox (insertProduct s m)
        ⟨s.nextId, b.lat_min, b.lat_max, b.lon_min, b.lon_max⟩ =
        { s with products := s.products ++ [rowOf s.nextId m]
                 bbox_index := s.bbox_index ++ [bboxRowOf s.nextId b]
                 nextId := s.nextId + 1 } := by
      rw [hip]
      unfold insertBbox
      rw [if_neg ?_]
      · rfl
      · rw [List.any_eq_true]
        rintro ⟨r, hr, hp⟩
        simp only at hr
        have := hbid r hr
        simp only [beq_iff_eq] at hp
        omega
    simp only [List.map_cons, _flush, hlk, hib]
    set s2 : Store :=
      { s with products := s.products ++ [rowOf s.nextId m]
               bbox_index := s.bbox_index ++ [bboxRowOf s.nextId b]
               nextId := s.nextId + 1 } with hs2
    have hnd' : ((rest.map Prod.fst).map metaKey).Nodup := by
      simp only [List.map_cons, List.nodup_cons] at hnd
      exact hnd.2
    have hkeyfresh : metaKey m ∉ (rest.map Prod.fst).map metaKey := by
      simp only [List.map_cons, List.nodup_cons] at hnd
      exact hnd.1
    have hfresh' : ∀ m' ∈ rest.map Prod.fst, ∀ r ∈ s2.products,
        ¬(r.file_path = m'.file_path ∧ r.product_type = m'.product_type) := by
      intro m' hm' r hr hcontra
      rcases List.mem_append.mp hr with hold | hnew
      · exact hfresh m' (by simp [hm']) r hold hcontra
      · have : r = rowOf s.nextId m := List.mem_singleton.mp hnew
        subst this
        apply hkeyfresh
        have : metaKey m = metaKey m' := by
          unfold metaKey
          rw [← hcontra.1, ← hcontra.2]
          rfl
        rw [this]
        exact List.mem_map_of_mem _ hm'
    have hpid' : ∀ r ∈ s2.products, r.id < s2.nextId := by
      intro r hr
      rcases List.mem_append.mp hr with hold | hnew
      · exact lt_trans (hpid r hold) (Nat.lt_succ_self _)
      · rw [List.mem_singleton.mp hnew]
        exact Nat.lt_succ_self _
    have hbid' : ∀ r ∈ s2.bbox_index, r.product_id < s2.nextId := by
      intro r hr
      rcases List.mem_append.mp hr with hold | hnew
      · exact lt_trans (hbid r hold) (Nat.lt_succ_self _)
      · rw [List.mem_singleton.mp hnew]
        exact Nat.lt_succ_self _
    rw [ih s2 hbl hnd' hfresh' hpid' hbid']
    simp only [hs2, newRows, List.append_assoc, List.singleton_append, List.length_cons]
    have harith : s.nextId + 1 + rest.length = s.nextId + (rest.length + 1) := by omega
    rw [harith]

/-! ## Unfolding lemmas for `extract_metadata` -/

theorem extract_metadata_ok (f : NCFile) (n : Nat) (bytes : List Nat) (nc : NCDataset)
    (bb : BBoxV) (hstat : f.statSize = .ok n) (hsize : ¬ n > MAX_SIZE_MB * 1024 * 1024)
    (hbb : compute_bbox f = .ok bb) (hbytes : f.firstBytes = .ok bytes)
    (hnc : f.ncOpen = .ok nc) :
    extract_metadata f = ⟨.ok (mkRecords f n (xxh64_hexdigest bytes) bb nc), []⟩ := by
  unfold extract_metadata
  rw [hstat]
  simp only [if_neg hsize]
  rw [hbb, hbytes, hnc]

/-- The variables of `nc` that the alias table matches. -/
def matchedVars (nc : NCDataset) : List String :=
  (walk_all_variables nc.root).filter (fun v => (dictGet VARIABLES_ALIAS v).isSome)

/-- The record `mkRecords` constructs for variable `v`. -/
def recordFor (f : NCFile) (n chk : Nat) (nc : NCDataset) (v : String) : Meta :=
  { file_path := f.path
    product_name := (dictGet VARIABLES_ALIAS v).getD ("") ++ " – " ++ v
    datetime_start := if normalize_datetime nc.start_time = ""
      then (extract_times_from_filename f.stem).1 else normalize_datetime nc.start_time
    datetime_end := if normalize_datetime nc.stop_time = ""
      then (extract_times_from_filename f.stem).2 else normalize_datetime nc.stop_time
    satellite := satelliteOf nc
    instrument := nc.instrument
    product_type := v
    size_bytes := n
    checksum := chk }

theorem mkRecords_eq (f : NCFile) (n chk : Nat) (bb : BBoxV) (nc : NCDataset) :
    mkRecords f n chk bb nc = .records
      ((matchedVars nc).map (recordFor f n chk nc))
      ((matchedVars nc).map (fun _ => bb)) := by
  unfold mkRecords matchedVars recordFor
  by_cases h : ((walk_all_variables nc.root).filter
      (fun v => (dictGet VARIABLES_ALIAS v).isSome)).isEmpty
  · simp only [if_pos h]
    rw [List.isEmpty_iff] at h
    rw [h]
    rfl
  · simp only [if_neg h]

theorem newRows_length_fst (L : List (Meta × BBoxV)) : ∀ (n : Nat),
    ((newRows n L).1).length = L.length := by
  induction L with
  | nil => intro n; rfl
  | cons p rest ih =>
    obtain ⟨m, b⟩ := p
    intro n
    simp only [newRows, List.length_cons]
    rw [ih (n + 1)]

theorem newRows_length_snd (L : List (Meta × BBoxV)) : ∀ (n : Nat),
    ((newRows n L).2).length = L.length := by
  induction L with
  | nil => intro n; rfl
  | cons p rest ih =>
    obtain ⟨m, b⟩ := p
    intro n
    simp only [newRows, List.length_cons]
    rw [ih (n + 1)]

theorem newRows_pairing (L : List (Meta × BBoxV)) : ∀ (n : Nat), ∀ p ∈ (newRows n L).1,
    ∃ (i : Nat) (x : Meta × BBoxV), x ∈ L ∧ p = rowOf i x.1 ∧
      bboxRowOf i x.2 ∈ (newRows n L).2 := by
  induction L with
  | nil => intro n p hp; simp [newRows] at hp
  | cons q rest ih =>
    obtain ⟨m, b⟩ := q
    intro n p hp
    simp only [newRows, List.mem_cons] at hp
    rcases hp with rfl | hp
    · exact ⟨n, (m, b), by simp, rfl, by simp [newRows]⟩
    · obtain ⟨i, x, hx, hpi, hb⟩ := ih (n + 1) p hp
      exact ⟨i, x, by simp [hx], hpi, by simp [newRows, hb]⟩

theorem newRows_bbox_shape (L : List (Meta × BBoxV)) : ∀ (n : Nat),
    ∀ b ∈ (newRows n L).2, ∃ (i : Nat) (x : Meta × BBoxV), x ∈ L ∧ b = bboxRowOf i x.2 := by
  induction L with
  | nil => intro n b hb; simp [newRows] at hb
  | cons p rest ih =>
    intro n b hb
    simp only [newRows, List.mem_cons] at hb
    rcases hb with rfl | hb
    · exact ⟨n, p, by simp, rfl⟩
    · obtain ⟨i, x, hx, hbx⟩ := ih (n + 1) b hb
      exact ⟨i, x, by simp [hx], hbx⟩

theorem runPipeline_flush (files : List NCFile) (s s1 : Store)
    (h : runPipeline s files = .done s1) :
    ∃ rem, _flush s (metasOf (files.map (fun f => (extract_metadata f).result)))
      (bboxesOf (files.map (fun f => (extract_metadata f).result))) = some (s1, rem) := by
  have hne := ingestLoop_done_no_error _ _ _ _ _ h
  unfold runPipeline at h
  rw [ingestLoop_eq _ s [] [] hne (by simp)] at h
  simp only [List.nil_append] at h
  cases hf : _flush s (metasOf (files.map (fun f => (extract_metadata f).result)))
      (bboxesOf (files.map (fun f => (extract_metadata f).result))) with
  | none => rw [hf] at h; exact absurd h (by simp [byOutcome])
  | some p =>
    obtain ⟨sf, rem⟩ := p
    rw [hf] at h
    have : sf = s1 := by simpa [byOutcome] using h
    subst this
    exact ⟨rem, rfl⟩

/-- Claim C4 as amended: when no geospatial strategy succeeds the extraction
is indeed not an error, but a `bbox_index` row *is* created for each of the
file's Product rows — carrying NULL in all four coordinate columns — rather
than the BoundingBox being absent entirely.  (Store semantics modelled from
the spec; the modelled schema has no NOT NULL constraint, which the spec
does not state.) -/
theorem failed_bbox_inserts_null_rows (f : NCFile) (n : Nat) (bytes : List Nat)
    (nc : NCDataset) (hstat : f.statSize = .ok n)
    (hsize : ¬ n > MAX_SIZE_MB * 1024 * 1024)
    (hbb : compute_bbox f = .ok noBBox) (hbytes : f.firstBytes = .ok bytes)
    (hnc : f.ncOpen = .ok nc) (hmatched : matchedVars nc ≠ []) :
    ∃ s', runPipeline emptyStore [f] = .done s' ∧ s'.products ≠ [] ∧
      s'.bbox_index.length = s'.products.length ∧
      (∀ p ∈ s'.products, ∃ b ∈ s'.bbox_index, b.product_id = p.id ∧
        b.lat_min = none ∧ b.lat_max = none ∧ b.lon_min = none ∧ b.lon_max = none) ∧
      (∀ b ∈ s'.bbox_index,
        b.lat_min = none ∧ b.lat_max = none ∧ b.lon_min = none ∧ b.lon_max = none) := by
  have hex := extract_metadata_ok f n bytes nc noBBox hstat hsize hbb hbytes hnc
  have hres : (extract_metadata f).result =
      .ok (.records ((matchedVars nc).map (recordFor f n (xxh64_hexdigest bytes) nc))
        ((matchedVars nc).map (fun _ => noBBox))) := by
    rw [hex, mkRecords_eq]
  set L : List (Meta × BBoxV) :=
    (matchedVars nc).map (fun v => (recordFor f n (xxh64_hexdigest bytes) nc v, noBBox))
    with hL
  have hzip : resPairs (extract_metadata f).result = L := by
    rw [hres]
    show (((matchedVars nc).map (recordFor f n (xxh64_hexdigest bytes) nc)).zip
      ((matchedVars nc).map (fun _ => noBBox))) = L
    rw [List.zip_map']
  have hmnd : (matchedVars nc).Nodup := by
    unfold matchedVars walk_all_variables
    exact (List.nodup_dedup _).filter _
  have hkeymap : (L.map Prod.fst).map metaKey =
      (matchedVars nc).map (fun v => (f.path, v)) := by
    rw [hL]
    induction matchedVars nc with
    | nil => rfl
    | cons v vs ih =>
      simp only [List.map_cons]
      rw [ih]
      rfl
  have hkeys : ((L.map Prod.fst).map metaKey).Nodup := by
    rw [hkeymap]
    exact hmnd.map (fun a b hab => congrArg Prod.snd hab)
  have hne : ∀ r ∈ [(extract_metadata f).result], ∀ e, r ≠ .error e := by
    intro r hr e heq
    rw [List.mem_singleton] at hr
    subst hr
    rw [hres] at heq
    exact Except.noConfusion heq
  have hpipe : runPipeline emptyStore [f] =
      byOutcome (_flush emptyStore (metasOf [(extract_metadata f).result])
        (bboxesOf [(extract_metadata f).result])) := by
    unfold runPipeline
    simp only [List.map_cons, List.map_nil]
    rw [ingestLoop_eq _ _ [] [] hne (by simp)]
    simp only [List.nil_append]
  have hm : metasOf [(extract_metadata f).result] = L.map Prod.fst := by
    simp [metasOf, pairsOf, hzip]
  have hb2 : bboxesOf [(extract_metadata f).result] = L.map Prod.snd := by
    simp [bboxesOf, pairsOf, hzip]
  rw [hm, hb2] at hpipe
  rw [flush_clean L emptyStore rfl hkeys
    (by intro m _ r hr; simp [emptyStore] at hr)
    (by intro r hr; simp [emptyStore] at hr)
    (by intro b hb; simp [emptyStore] at hb)] at hpipe
  refine ⟨_, by rw [hpipe]; rfl, ?_, ?_, ?_, ?_⟩
  · show emptyStore.products ++ (newRows emptyStore.nextId L).1 ≠ []
    obtain ⟨v, vs, hvvs⟩ := List.exists_cons_of_ne_nil hmatched
    rw [hL, hvvs]
    simp [newRows]
  · show ((newRows 1 L).2).length = ((newRows 1 L).1).length
    rw [newRows_length_snd, newRows_length_fst]
  · intro p hp
    have hp' : p ∈ (newRows 1 L).1 := hp
    obtain ⟨i, x, hx, hpi, hbmem⟩ := newRows_pairing L 1 p hp'
    have hx2 : x.2 = noBBox := by
      rw [hL] at hx
      obtain ⟨v, _, hv⟩ := List.mem_map.mp hx
      rw [← hv]
    refine ⟨bboxRowOf i x.2, hbmem, ?_, ?_, ?_, ?_, ?_⟩
    · rw [hpi]
      rfl
    · rw [hx2]
      rfl
    · rw [hx2]
      rfl
    · rw [hx2]
      rfl
    · rw [hx2]
      rfl
  · intro b hb
    have hb' : b ∈ emptyStore.bbox_index ++ (newRows emptyStore.nextId L).2 := hb
    rw [show emptyStore.bbox_index = [] from rfl, List.nil_append] at hb'
    obtain ⟨i, x, hx, hbx⟩ := newRows_bbox_shape L _ b hb'
    have hx2 : x.2 = noBBox := by
      rw [hL] at hx
      obtain ⟨v, _, hv⟩ := List.mem_map.mp hx
      rw [← hv]
    rw [hbx, hx2]
    exact ⟨rfl, rfl, rfl, rfl⟩

set_option maxRecDepth 40000 in
/-- Witness for the amended C4 at the concrete file `file_c4`. -/
theorem failed_bbox_inserts_null_rows_witness :
    file_c4.statSize = .ok 10 ∧ ¬ ((10 : Nat) > MAX_SIZE_MB * 1024 * 1024) ∧
    compute_bbox file_c4 = .ok noBBox ∧ file_c4.firstBytes = .ok [] ∧
    file_c4.ncOpen = .ok ncds_c4 ∧ matchedVars ncds_c4 ≠ [] ∧
    (∃ s', runPipeline emptyStore [file_c4] = .done s' ∧ s'.products ≠ [] ∧
      s'.bbox_index.length = s'.products.length ∧
      (∀ p ∈ s'.products, ∃ b ∈ s'.bbox_index, b.product_id = p.id ∧
        b.lat_min = none ∧ b.lat_max = none ∧ b.lon_min = none ∧ b.lon_max = none) ∧
      (∀ b ∈ s'.bbox_index,
        b.lat_min = none ∧ b.lat_max = none ∧ b.lon_min = none ∧ b.lon_max = none)) :=
  ⟨rfl, by decide, by decide, rfl, rfl, by decide,
    failed_bbox_inserts_null_rows file_c4 10 [] ncds_c4 rfl (by decide) (by decide)
      rfl rfl (by decide)⟩

/-- Claim C6 — Timestamp fallback precedence: in every record the extractor
emits, a parseable file-level attribute wins (the filename pair is ignored),
and a filename-derived value fills exactly the start/end component whose
attribute was missing or unparseable. -/
theorem timestamp_attribute_precedence (f : NCFile) (n : Nat) (bytes : List Nat)
    (nc : NCDataset) (bb : BBoxV) (ms : List Meta) (bs : List BBoxV)
    (hstat : f.statSize = .ok n) (hsize : ¬ n > MAX_SIZE_MB * 1024 * 1024)
    (hbb : compute_bbox f = .ok bb) (hbytes : f.firstBytes = .ok bytes)
    (hnc : f.ncOpen = .ok nc)
    (hres : (extract_metadata f).result = .ok (.records ms bs)) :
    ∀ m ∈ ms,
      (normalize_datetime nc.start_time ≠ "" →
        m.datetime_start = normalize_datetime nc.start_time) ∧
      (normalize_datetime nc.stop_time ≠ "" →
        m.datetime_end = normalize_datetime nc.stop_time) ∧
      (normalize_datetime nc.start_time = "" →
        m.datetime_start = (extract_times_from_filename f.stem).1) ∧
      (normalize_datetime nc.stop_time = "" →
        m.datetime_end = (extract_times_from_filename f.stem).2) := by
  intro m hm
  have hex := extract_metadata_ok f n bytes nc bb hstat hsize hbb hbytes hnc
  rw [hex, mkRecords_eq] at hres
  obtain ⟨h1, _⟩ := ExtractRes.records.inj (Except.ok.inj hres)
  rw [← h1] at hm
  obtain ⟨v, _, rfl⟩ := List.mem_map.mp hm
  refine ⟨?_, ?_, ?_, ?_⟩ <;> intro h
  · show (if normalize_datetime nc.start_time = "" then _ else _) = _
    rw [if_neg h]
  · show (if normalize_datetime nc.stop_time = "" then _ else _) = _
    rw [if_neg h]
  · show (if normalize_datetime nc.start_time = "" then _ else _) = _
    rw [if_pos h]
  · show (if normalize_datetime nc.stop_time = "" then _ else _) = _
    rw [if_pos h]

set_option maxRecDepth 40000 in
/-- Witness for C6 at `file_c6`: the parseable `start_time` attribute wins
and the missing `stop_time` is filled from the filename. -/
theorem timestamp_attribute_precedence_witness :
    (extract_metadata file_c6).result = .ok (.records [meta_c6] [noBBox]) ∧
    (∀ m ∈ [meta_c6],
      (normalize_datetime ncds_c6.start_time ≠ "" →
        m.datetime_start = normalize_datetime ncds_c6.start_time) ∧
      (normalize_datetime ncds_c6.stop_time ≠ "" →
        m.datetime_end = normalize_datetime ncds_c6.stop_time) ∧
      (normalize_datetime ncds_c6.start_time = "" →
        m.datetime_start = (extract_times_from_filename file_c6.stem).1) ∧
      (normalize_datetime ncds_c6.stop_time = "" →
        m.datetime_end = (extract_times_from_filename file_c6.stem).2)) :=
  ⟨by decide,
    timestamp_attribute_precedence file_c6 10 [] ncds_c6 noBBox [meta_c6] [noBBox]
      rfl (by decide) (by decide) rfl rfl (by decide)⟩

/-- Claim C7 — Fan-out: under the size guard, a successfully parsed file
yields exactly one record per distinct alias-matched variable name (found
anywhere across nested groups), all sharing identical `file_path`, bbox,
`datetime_start`/`datetime_end`, satellite, instrument, `size_bytes` and
checksum and differing only in `product_type`; an empty intersection yields
the empty record list, not a failure. -/
theorem extractor_fanout_per_matched_variable (f : NCFile) (n : Nat) (bytes : List Nat)
    (nc : NCDataset) (bb : BBoxV)
    (hstat : f.statSize = .ok n) (hsize : ¬ n > MAX_SIZE_MB * 1024 * 1024)
    (hbb : compute_bbox f = .ok bb) (hbytes : f.firstBytes = .ok bytes)
    (hnc : f.ncOpen = .ok nc) :
    ∃ ms bs, (extract_metadata f).result = .ok (.records ms bs) ∧
      ms.map (fun m => m.product_type) = matchedVars nc ∧
      (matchedVars nc).Nodup ∧
      (∀ v, v ∈ matchedVars nc ↔
        v ∈ walk_all_variables nc.root ∧ (dictGet VARIABLES_ALIAS v).isSome = true) ∧
      bs.length = ms.length ∧
      (∀ m ∈ ms, m.file_path = f.path ∧
        m.datetime_start = (if normalize_datetime nc.start_time = ""
          then (extract_times_from_filename f.stem).1
          else normalize_datetime nc.start_time) ∧
        m.datetime_end = (if normalize_datetime nc.stop_time = ""
          then (extract_times_from_filename f.stem).2
          else normalize_datetime nc.stop_time) ∧
        m.size_bytes = n ∧ m.checksum = xxh64_hexdigest bytes ∧
        m.satellite = satelliteOf nc ∧ m.instrument = nc.instrument) ∧
      (∀ b ∈ bs, b = bb) ∧
      (matchedVars nc = [] → ms = [] ∧ bs = []) := by
  have hex := extract_metadata_ok f n bytes nc bb hstat hsize hbb hbytes hnc
  refine ⟨(matchedVars nc).map (recordFor f n (xxh64_hexdigest bytes) nc),
    (matchedVars nc).map (fun _ => bb), by rw [hex, mkRecords_eq], ?_, ?_, ?_, ?_, ?_, ?_, ?_⟩
  · induction matchedVars nc with
    | nil => rfl
    | cons v vs ih =>
      simp only [List.map_cons]
      rw [ih]
      rfl
  · unfold matchedVars walk_all_variables
    exact (List.nodup_dedup _).filter _
  · intro v
    exact List.mem_filter
  · simp
  · intro m hm
    obtain ⟨v, _, rfl⟩ := List.mem_map.mp hm
    exact ⟨rfl, rfl, rfl, rfl, rfl, rfl, rfl⟩
  · intro b hb
    obtain ⟨v, _, rfl⟩ := List.mem_map.mp hb
    rfl
  · intro hempty
    rw [hempty]
    exact ⟨rfl, rfl⟩

set_option maxRecDepth 40000 in
/-- Witness for C7 at `file_c7` (two matched variables, one unmatched, one
in a nested group). -/
theorem extractor_fanout_per_matched_variable_witness :
    file_c7.statSize = .ok 20 ∧ ¬ ((20 : Nat) > MAX_SIZE_MB * 1024 * 1024) ∧
    compute_bbox file_c7 = .ok noBBox ∧ file_c7.firstBytes = .ok [3] ∧
    file_c7.ncOpen = .ok ncds_c7 ∧ matchedVars ncds_c7 = ["sst", "wind_speed"] ∧
    (∃ ms bs, (extract_metadata file_c7).result = .ok (.records ms bs) ∧
      ms.map (fun m => m.product_type) = matchedVars ncds_c7 ∧
      (matchedVars ncds_c7).Nodup ∧
      (∀ v, v ∈ matchedVars ncds_c7 ↔
        v ∈ walk_all_variables ncds_c7.root ∧ (dictGet VARIABLES_ALIAS v).isSome = true) ∧
      bs.length = ms.length ∧
      (∀ m ∈ ms, m.file_path = file_c7.path ∧
        m.datetime_start = (if normalize_datetime ncds_c7.start_time = ""
          then (extract_times_from_filename file_c7.stem).1
          else normalize_datetime ncds_c7.start_time) ∧
        m.datetime_end = (if normalize_datetime ncds_c7.stop_time = ""
          then (extract_times_from_filename file_c7.stem).2
          else normalize_datetime ncds_c7.stop_time) ∧
        m.size_bytes = 20 ∧ m.checksum = xxh64_hexdigest [3] ∧
        m.satellite = satelliteOf ncds_c7 ∧ m.instrument = ncds_c7.instrument) ∧
      (∀ b ∈ bs, b = noBBox) ∧
      (matchedVars ncds_c7 = [] → ms = [] ∧ bs = [])) :=
  ⟨rfl, by decide, by decide, rfl, rfl, by decide,
    extractor_fanout_per_matched_variable file_c7 20 [3] ncds_c7 noBBox rfl (by decide)
      (by decide) rfl rfl⟩

theorem nanmeanStack_some (arrs : List (List (Option ℚ))) (x : List (Option ℚ))
    (h : nanmeanStack arrs = some x) : x = (nanColumns arrs).map nanmeanList := by
  cases arrs with
  | nil =>
    simp only [nanmeanStack] at h
    cases Option.some.inj h
    rfl
  | cons a rest =>
    simp only [nanmeanStack] at h
    by_cases hall : rest.all (fun r => r.length == a.length) = true
    · rw [if_pos hall] at h
      exact (Option.some.inj h).symm
    · rw [if_neg hall] at h
      exact Option.noConfusion h

/-- Claim C8 — Corner fallback: when a file has no direct latitude/longitude
coordinate variables (`find_lat_lon` fails) but exactly four per-axis
pixel-corner variables of each kind, the computed bounding box is exactly
the nan-min/nan-max of the element-wise nan-mean of the four corner arrays
(per axis). -/
theorem corner_fallback_bbox (f : NCFile) (ds : XrDataset) (la lo : List (Option ℚ))
    (hxr : f.xrOpen = .ok ds)
    (hdirect : find_lat_lon ds = none)
    (hclat : (cornerLatNames ds).length = 4)
    (hclon : (cornerLonNames ds).length = 4)
    (hla : nanmeanStack ((cornerLatNames ds).filterMap
      (fun nm => (xrGet ds nm).map (·.values))) = some la)
    (hlo : nanmeanStack ((cornerLonNames ds).filterMap
      (fun nm => (xrGet ds nm).map (·.values))) = some lo)
    (hlane : la ≠ []) (hlone : lo ≠ []) :
    compute_bbox f = .ok ⟨nanmin la, nanmax la, nanmin lo, nanmax lo⟩ ∧
    la = (nanColumns ((cornerLatNames ds).filterMap
      (fun nm => (xrGet ds nm).map (·.values)))).map nanmeanList ∧
    lo = (nanColumns ((cornerLonNames ds).filterMap
      (fun nm => (xrGet ds nm).map (·.values)))).map nanmeanList := by
  have hxb : xr_bbox ds = some ⟨nanmin la, nanmax la, nanmin lo, nanmax lo⟩ := by
    unfold xr_bbox
    rw [hdirect]
    simp only [if_pos (And.intro hclat hclon), hla, hlo]
    unfold finishBBox
    rw [if_neg ?_]
    · rintro (h | h)
      · exact hlane (List.isEmpty_iff.mp h)
      · exact hlone (List.isEmpty_iff.mp h)
  refine ⟨?_, nanmeanStack_some _ _ hla, nanmeanStack_some _ _ hlo⟩
  simp only [compute_bbox, hxr, hxb]

set_option maxRecDepth 40000 in
/-- Witness for C8 at `ds_c8`: four corner arrays per axis, no direct
coordinates; the bbox equals the min/max of their element-wise means. -/
theorem corner_fallback_bbox_witness :
    file_c8.xrOpen = .ok ds_c8 ∧ find_lat_lon ds_c8 = none ∧
    (cornerLatNames ds_c8).length = 4 ∧ (cornerLonNames ds_c8).length = 4 ∧
    (compute_bbox file_c8 = .ok
      ⟨nanmin ((nanColumns [[some 1], [some 2], [some 3], [some 4]]).map nanmeanList),
       nanmax ((nanColumns [[some 1], [some 2], [some 3], [some 4]]).map nanmeanList),
       nanmin ((nanColumns [[some 10], [some 20], [some 30], [some 40]]).map nanmeanList),
       nanmax ((nanColumns [[some 10], [some 20], [some 30], [some 40]]).map nanmeanList)⟩) := by
  refine ⟨rfl, by decide, by decide, by decide, ?_⟩
  exact (corner_fallback_bbox file_c8 ds_c8
    ((nanColumns [[some 1], [some 2], [some 3], [some 4]]).map nanmeanList)
    ((nanColumns [[some 10], [some 20], [some 30], [some 40]]).map nanmeanList)
    rfl (by decide) (by decide) (by decide) rfl rfl (by decide) (by decide)).1

set_option maxRecDepth 40000 in
/-- Counterexample to claim C9 as stated: the two arrival orders of the
independent pair `file_c9a`, `file_c9b` both complete, but the final
Product rows are not identical (not even as unordered collections): the
generated ids attach to different row contents. -/
theorem arrival_order_changes_rows :
    runPipeline emptyStore [file_c9a, file_c9b] = .done store_c9ab ∧
    runPipeline emptyStore [file_c9b, file_c9a] = .done store_c9ba ∧
    ¬ (store_c9ab.products.Perm store_c9ba.products) :=
  ⟨by decide, by decide, by decide⟩

theorem productContents_newRows (L : List (Meta × BBoxV)) (n k : Nat)
    (bl : List (String × String)) :
    productContents ⟨(newRows n L).1, (newRows n L).2, k, bl⟩ =
      (L.map Prod.fst : List Meta) := by
  unfold productContents
  exact congrArg _ (newRows_content L n)

theorem bboxKeyed_newRows (L : List (Meta × BBoxV)) (n k : Nat)
    (bl : List (String × String)) :
    bboxKeyed ⟨(newRows n L).1, (newRows n L).2, k, bl⟩ =
      (L.map (fun x => (metaKey x.1,
        (x.2.lat_min, x.2.lat_max, x.2.lon_min, x.2.lon_max))) : List _) := by
  unfold bboxKeyed
  exact congrArg _ (newRows_keyed L n)

theorem runPipeline_clean (files : List NCFile) (s1 : Store)
    (hnd : ((metasOf (files.map (fun f => (extract_metadata f).result))).map metaKey).Nodup)
    (h : runPipeline emptyStore files = .done s1) :
    productContents s1 =
      ((pairsOf (files.map (fun f => (extract_metadata f).result))).map Prod.fst : List Meta) ∧
    bboxKeyed s1 =
      ((pairsOf (files.map (fun f => (extract_metadata f).result))).map
        (fun x => (metaKey x.1,
          (x.2.lat_min, x.2.lat_max, x.2.lon_min, x.2.lon_max))) : List _) := by
  obtain ⟨rem, hf⟩ := runPipeline_flush files emptyStore s1 h
  have hf2 : _flush emptyStore
      ((pairsOf (files.map (fun f => (extract_metadata f).result))).map Prod.fst)
      ((pairsOf (files.map (fun f => (extract_metadata f).result))).map Prod.snd) =
      some (s1, rem) := hf
  rw [flush_clean (pairsOf (files.map (fun f => (extract_metadata f).result))) emptyStore rfl
    hnd
    (by intro m _ r hr; simp [emptyStore] at hr)
    (by intro r hr; simp [emptyStore] at hr)
    (by intro b hb; simp [emptyStore] at hb)] at hf2
  have hpair := Option.some.inj hf2
  rw [Prod.mk.injEq] at hpair
  obtain ⟨hs1, -⟩ := hpair
  refine ⟨?_, ?_⟩
  · rw [← hs1]
    exact productContents_newRows _ 1 _ _
  · rw [← hs1]
    exact bboxKeyed_newRows _ 1 _ _

/-- Claim C9 as amended: from an empty store, over independent files (all
`(file_path, product_type)` keys pairwise distinct), any arrival order of
the extraction results yields the same final rows *up to the generated
product ids*: the multiset of id-stripped Product rows and the multiset of
BoundingBox rows re-keyed by the owning product's key are both invariant. -/
theorem arrival_order_invariant_up_to_ids (files files2 : List NCFile) (s1 s2 : Store)
    (hnd : ((metasOf (files.map (fun f => (extract_metadata f).result))).map metaKey).Nodup)
    (h1 : runPipeline emptyStore files = .done s1)
    (h2 : runPipeline emptyStore files2 = .done s2)
    (hperm : files2.Perm files) :
    productContents s1 = productContents s2 ∧ bboxKeyed s1 = bboxKeyed s2 := by
  have hLperm : (pairsOf (files2.map (fun f => (extract_metadata f).result))).Perm
      (pairsOf (files.map (fun f => (extract_metadata f).result))) :=
    List.Perm.flatMap_right resPairs (hperm.map _)
  have hnd2 : ((metasOf (files2.map (fun f => (extract_metadata f).result))).map
      metaKey).Nodup := by
    have hp : ((metasOf (files2.map (fun f => (extract_metadata f).result))).map
        metaKey).Perm ((metasOf (files.map (fun f =>
          (extract_metadata f).result))).map metaKey) :=
      (hLperm.map Prod.fst).map metaKey
    exact hp.nodup_iff.mpr hnd
  have hA := runPipeline_clean files s1 hnd h1
  have hB := runPipeline_clean files2 s2 hnd2 h2
  rw [hA.1, hA.2, hB.1, hB.2]
  exact ⟨(Multiset.coe_eq_coe.mpr ((hLperm.map Prod.fst).symm)),
    (Multiset.coe_eq_coe.mpr ((hLperm.map _).symm))⟩

set_option maxRecDepth 40000 in
/-- Witness for the amended C9 at the concrete two-file set in both arrival
orders. -/
theorem arrival_order_invariant_up_to_ids_witness :
    ((metasOf ([file_c9a, file_c9b].map (fun f => (extract_metadata f).result))).map
      metaKey).Nodup ∧
    runPipeline emptyStore [file_c9a, file_c9b] = .done store_c9ab ∧
    runPipeline emptyStore [file_c9b, file_c9a] = .done store_c9ba ∧
    (productContents store_c9ab = productContents store_c9ba ∧
      bboxKeyed store_c9ab = bboxKeyed store_c9ba) :=
  ⟨by decide, by decide, by decide,
    arrival_order_invariant_up_to_ids [file_c9a, file_c9b] [file_c9b, file_c9a]
      store_c9ab store_c9ba (by decide) (by decide) (by decide)
      (List.Perm.swap file_c9a file_c9b [])⟩

end Copernicus
